import Mathlib

/-!
Verification of the tabular-pipeline core of the `Proyectos-python` repository
(the `ETL_project_end_to_end` transformer/extractor/loader and the
`ETL_Scraping_DataLakehouse` scraper manager) against its natural-language
specification.

The Python dataframes are shallowly embedded: a `DataFrame` is a column header
list (name and dtype, mirroring pandas' per-column dtype) together with a list
of rows, each row a list of optional dynamic values (`none` models NaN/None).
Floating-point numbers are modelled by rationals: none of the verified
properties depends on float rounding, only on ordered-field arithmetic with
exact constants (0.01, 1.5).  All definitions are executable.
-/

namespace ETL

/-! ### Kernel-computable rational arithmetic

The ambient `ℚ` field operations do not reduce inside the kernel (so `decide`
on concrete pipeline runs would get stuck); the embedding therefore uses the
following `mkRat`-based operations, each proved equal to the corresponding
field operation so that symbolic proofs can work with ordinary arithmetic. -/

def qAdd (a b : ℚ) : ℚ := mkRat (a.num * b.den + b.num * a.den) (a.den * b.den)

def qSub (a b : ℚ) : ℚ := mkRat (a.num * b.den - b.num * a.den) (a.den * b.den)

def qMul (a b : ℚ) : ℚ := mkRat (a.num * b.num) (a.den * b.den)

def qAbs (a : ℚ) : ℚ := if a < 0 then mkRat (-a.num) a.den else a

theorem qAdd_eq (a b : ℚ) : qAdd a b = a + b := by
  rw [qAdd, Rat.mkRat_eq_div]
  conv_rhs => rw [← Rat.num_div_den a, ← Rat.num_div_den b]
  have ha : ((a.den : ℚ)) ≠ 0 := by exact_mod_cast a.den_nz
  have hb : ((b.den : ℚ)) ≠ 0 := by exact_mod_cast b.den_nz
  field_simp

theorem qSub_eq (a b : ℚ) : qSub a b = a - b := by
  rw [qSub, Rat.mkRat_eq_div]
  conv_rhs => rw [← Rat.num_div_den a, ← Rat.num_div_den b]
  have ha : ((a.den : ℚ)) ≠ 0 := by exact_mod_cast a.den_nz
  have hb : ((b.den : ℚ)) ≠ 0 := by exact_mod_cast b.den_nz
  field_simp
  ring

theorem qMul_eq (a b : ℚ) : qMul a b = a * b := by
  rw [qMul, Rat.mkRat_eq_div]
  conv_rhs => rw [← Rat.num_div_den a, ← Rat.num_div_den b]
  have ha : ((a.den : ℚ)) ≠ 0 := by exact_mod_cast a.den_nz
  have hb : ((b.den : ℚ)) ≠ 0 := by exact_mod_cast b.den_nz
  field_simp

theorem qAbs_eq (a : ℚ) : qAbs a = |a| := by
  rw [qAbs]
  by_cases h : a < 0
  · rw [if_pos h, abs_of_neg h, Rat.mkRat_eq_div]
    conv_rhs => rw [← Rat.num_div_den a]
    push_cast
    ring
  · rw [if_neg h, abs_of_nonneg (not_lt.mp h)]

/-- Calendar timestamp as exposed by pandas `.dt` accessors.  `pd.to_datetime`
parsing of raw strings is outside the embedding; datasets enter the pipeline
carrying already-parsed timestamps, and `to_datetime` on them is the identity
(see `toDatetimeCell`). -/
structure Fecha where
  year : Int
  month : Int
  day : Int
  dayName : String
deriving DecidableEq, Repr

/-- Dynamic scalar stored in a dataframe cell (pandas object/number/bool/datetime). -/
inductive Value where
  | num (q : ℚ)
  | str (s : String)
  | boolean (b : Bool)
  | date (d : Fecha)
deriving DecidableEq, Repr

/-- pandas column dtype, as far as the cleaning engine inspects it
(`df[col].dtype in ['int64','float64']` and `select_dtypes(include=[np.number])`). -/
inductive DType where
  | int
  | float
  | obj
  | boolT
  | datetime
deriving DecidableEq, Repr

def DType.isNumeric : DType → Bool
  | .int => true
  | .float => true
  | _ => false

/-- Column header: name and dtype. -/
structure Col where
  name : String
  dtype : DType
deriving DecidableEq, Repr

/-- A pandas DataFrame: ordered columns, ordered rows; a cell is `none` for
NaN/None.  Well-formed frames have every row of length `cols.length`. -/
structure DataFrame where
  cols : List Col
  rows : List (List (Option Value))
deriving DecidableEq, Repr

/-- Cell of row `r` at column position `i` (NaN when the row is too short). -/
def cellAt (r : List (Option Value)) (i : ℕ) : Option Value :=
  r.getD i none

/-- Position of the first column named `n` in a header list. -/
def idxOfName : List Col → String → Option ℕ
  | [], _ => none
  | c :: cs, n => if c.name = n then some 0 else (idxOfName cs n).map (· + 1)

/-- Position of the column named `n`, as pandas column lookup `df[n]`. -/
def colIdx (df : DataFrame) (n : String) : Option ℕ :=
  idxOfName df.cols n

/-- The cells of column `i`, top to bottom. -/
def getColCells (df : DataFrame) (i : ℕ) : List (Option Value) :=
  df.rows.map (fun r => cellAt r i)

/-- Overwrite column `i` with the given cells (row count unchanged). -/
def setColCells (df : DataFrame) (i : ℕ) (cells : List (Option Value)) : DataFrame :=
  { df with rows := List.zipWith (fun r c => r.set i c) df.rows cells }

/-- The cleaning configuration consumed by `DataTransformer._clean_dataframe`,
with the `.get` defaults already resolved:
`remove_duplicates` (default True), `fill_missing.strategy` (default 'forward'),
`fill_missing.numeric` (default 0), `fill_missing.categorical`
(default 'Unknown'), `outliers.method`, `outliers.threshold` (default 1.5). -/
structure CleaningPolicy where
  removeDuplicates : Bool
  strategy : String
  numericFill : ℚ
  categoricalFill : Value
  outlierMethod : String
  outlierThreshold : ℚ
deriving DecidableEq, Repr

/-! ### Step 1: duplicate removal (`df.drop_duplicates()`), keeping the first
occurrence of each full-row value, survivors in original order. -/

def dedupKeepFirstAux {α : Type} [DecidableEq α] (seen : List α) : List α → List α
  | [] => []
  | x :: xs =>
    if x ∈ seen then dedupKeepFirstAux seen xs
    else x :: dedupKeepFirstAux (x :: seen) xs

def dedupKeepFirst {α : Type} [DecidableEq α] (l : List α) : List α :=
  dedupKeepFirstAux [] l

def dedupStep (df : DataFrame) : DataFrame :=
  { df with rows := dedupKeepFirst df.rows }

/-! ### Step 2: missing-value imputation. -/

/-- One row forward-filled from the running `last` vector of most recent
non-null cells per column. -/
def fillRow (last r : List (Option Value)) : List (Option Value) :=
  List.zipWith (fun c l => c.orElse (fun _ => l)) r last

/-- `df.fillna(method='ffill')`: each null cell takes the nearest preceding
non-null value of its column. -/
def ffillRows (last : List (Option Value)) :
    List (List (Option Value)) → List (List (Option Value))
  | [] => []
  | r :: rs =>
    let fr := fillRow last r
    fr :: ffillRows fr rs

def noneRow (df : DataFrame) : List (Option Value) :=
  List.replicate df.cols.length none

def ffillStep (df : DataFrame) : DataFrame :=
  { df with rows := ffillRows (noneRow df) df.rows }

/-- `df.fillna(method='bfill')`: nearest following non-null value, i.e. a
forward fill over the reversed row order. -/
def bfillStep (df : DataFrame) : DataFrame :=
  { df with rows := (ffillRows (noneRow df) df.rows.reverse).reverse }

/-- Constant fill of one cell: int64/float64 columns get the numeric constant,
every other column the categorical constant. -/
def fillCellConst (pol : CleaningPolicy) (dt : DType) (c : Option Value) : Option Value :=
  match c with
  | some v => some v
  | none => if dt.isNumeric then some (.num pol.numericFill) else some pol.categoricalFill

def constFillStep (pol : CleaningPolicy) (df : DataFrame) : DataFrame :=
  { df with rows := df.rows.map (fun r =>
      List.zipWith (fun (c : Col) cell => fillCellConst pol c.dtype cell) df.cols r) }

/-- Dispatch on `fill_config.get('strategy', 'forward')`: 'forward' and
'backward' are recognized, every other string falls into the constant branch. -/
def fillMissingStep (pol : CleaningPolicy) (df : DataFrame) : DataFrame :=
  if pol.strategy = "forward" then ffillStep df
  else if pol.strategy = "backward" then bfillStep df
  else constFillStep pol df

/-! ### Step 3: IQR outlier clamping (`_handle_outliers_iqr`). -/

def cellToNum : Option Value → Option ℚ
  | some (.num q) => some q
  | _ => none

/-- Executable floor of a rational (`Int.fdiv` rounds toward negative
infinity; the denominator of a `ℚ` is positive). -/
def ratFloor (q : ℚ) : ℤ :=
  q.num.fdiv q.den

/-- Kernel-computable casts into `ℚ`. -/
def qNat (n : ℕ) : ℚ := mkRat n 1

def qInt (z : ℤ) : ℚ := mkRat z 1

theorem qNat_eq (n : ℕ) : qNat n = (n : ℚ) := by
  simp [qNat, Rat.mkRat_eq_div]

theorem qInt_eq (z : ℤ) : qInt z = (z : ℚ) := by
  simp [qInt, Rat.mkRat_eq_div]

/-- pandas `Series.quantile(p)` with the default linear interpolation, over an
already sorted list of the non-null values. -/
def quantileLin (xs : List ℚ) (p : ℚ) : ℚ :=
  let n : ℕ := xs.length
  let h : ℚ := qMul p (qSub (qNat n) 1)
  let i : ℕ := (ratFloor h).toNat
  let lo : ℚ := xs.getD i 0
  let hi : ℚ := xs.getD (i + 1) lo
  qAdd lo (qMul (qSub h (qInt (ratFloor h))) (qSub hi lo))

/-- Sequential clamping of one numeric value, mirroring the two `df.loc`
assignments: first values below the lower bound are raised to it, then values
above the upper bound are lowered to it. -/
def clampCell (lb ub : ℚ) : Option Value → Option Value
  | some (.num v) =>
    let x := if v < lb then lb else v
    some (.num (if ub < x then ub else x))
  | c => c

/-- The body of the per-column loop of `_handle_outliers_iqr`: quartiles over
the non-null values, bounds `[Q1 - t*IQR, Q3 + t*IQR]`, and clamping applied
only when at least one value lies outside the bounds.  A column with no
non-null values is returned unchanged (its quartiles are NaN in pandas, so no
comparison holds and nothing is assigned). -/
def clampColumnIQR (t : ℚ) (col : List (Option Value)) : List (Option Value) :=
  let vals := col.filterMap cellToNum
  if vals = [] then col
  else
    let sorted := vals.insertionSort (· ≤ ·)
    let q1 := quantileLin sorted (mkRat 1 4)
    let q3 := quantileLin sorted (mkRat 3 4)
    let iqr := qSub q3 q1
    let lb := qSub q1 (qMul t iqr)
    let ub := qAdd q3 (qMul t iqr)
    let outCount := vals.countP (fun v => v < lb ∨ ub < v)
    if outCount = 0 then col else col.map (clampCell lb ub)

/-- Cell of a well-formed numeric (float64/int64) column: NaN or a number. -/
def isNumOrNone : Option Value → Bool
  | none => true
  | some (.num _) => true
  | some _ => false

/-- Is the cell a (non-null) number? -/
def isNum : Option Value → Bool
  | some (.num _) => true
  | _ => false

/-- Indices of the numeric (`select_dtypes(include=[np.number])`) columns. -/
def numColIdxs (df : DataFrame) : List ℕ :=
  (List.range df.cols.length).filter
    (fun i => (df.cols.getD i ⟨"", .obj⟩).dtype.isNumeric)

def clampFrameCol (t : ℚ) (df : DataFrame) (i : ℕ) : DataFrame :=
  setColCells df i (clampColumnIQR t (getColCells df i))

/-- `_handle_outliers_iqr`: clamp every numeric column in order. -/
def handleOutliersIQR (t : ℚ) (df : DataFrame) : DataFrame :=
  (numColIdxs df).foldl (clampFrameCol t) df

/-- `_clean_dataframe`: duplicate removal (if configured), then missing-value
imputation, then IQR clamping (if `outliers.method == 'iqr'`). -/
def cleanDataFrame (pol : CleaningPolicy) (df : DataFrame) : DataFrame :=
  let d1 := if pol.removeDuplicates then dedupStep df else df
  let d2 := fillMissingStep pol d1
  if pol.outlierMethod = "iqr" then handleOutliersIQR pol.outlierThreshold d2 else d2

/-! ### Python string operations used by the kind-specific transforms -/

/-- Python `str.strip()`: remove leading and trailing whitespace. -/
def stripStr (s : String) : String :=
  ⟨(((s.toList.dropWhile Char.isWhitespace).reverse.dropWhile Char.isWhitespace).reverse)⟩

/-- Python `str.lower()` (ASCII case mapping). -/
def lowerStr (s : String) : String :=
  ⟨s.toList.map Char.toLower⟩

def titleAux : Bool → List Char → List Char
  | _, [] => []
  | prevAlpha, c :: cs =>
    (if c.isAlpha then (if prevAlpha then c.toLower else c.toUpper) else c) ::
      titleAux c.isAlpha cs

/-- Python `str.title()`: letters following a non-letter are upper-cased,
other letters lower-cased. -/
def titleStr (s : String) : String :=
  ⟨titleAux false s.toList⟩

/-- Python `'@' in s`. -/
def strContainsChar (s : String) (c : Char) : Bool :=
  s.toList.contains c

/-! ### Dynamic cell operations (pandas Series semantics) -/

/-- pandas `.str` accessor method: applies to string cells, any other cell
(null included) becomes NaN. -/
def strCellMap (f : String → String) : Option Value → Option Value
  | some (.str s) => some (.str (f s))
  | _ => none

/-- `Series.fillna(v)` on one cell. -/
def fillnaCell (v : Value) : Option Value → Option Value
  | none => some v
  | c => c

/-- `pd.to_datetime` on a cell: identity on already-parsed timestamps.  The
parsing of raw date strings is not modelled (with `errors='coerce'` an
unparseable cell becomes NaT, modelled `none`; in the transform entry points
the source would raise on unparseable input, which no verified property
exercises). -/
def toDatetimeCell : Option Value → Option Value
  | some (.date d) => some (.date d)
  | _ => none

def dtMonthCell : Option Value → Option Value
  | some (.date d) => some (.num (qInt d.month))
  | _ => none

def dtYearCell : Option Value → Option Value
  | some (.date d) => some (.num (qInt d.year))
  | _ => none

def dtDayNameCell : Option Value → Option Value
  | some (.date d) => some (.str d.dayName)
  | _ => none

/-- Series arithmetic: NaN-propagating multiplication of two cells. -/
def cellMul (a b : Option Value) : Option Value :=
  match a, b with
  | some (.num x), some (.num y) => some (.num (qMul x y))
  | _, _ => none

/-- Series subtraction, NaN-propagating. -/
def cellSub (a b : Option Value) : Option Value :=
  match a, b with
  | some (.num x), some (.num y) => some (.num (qSub x y))
  | _, _ => none

/-- Series `abs`, NaN-propagating. -/
def cellAbs : Option Value → Option Value
  | some (.num x) => some (.num (qAbs x))
  | _ => none

/-- Boolean mask `series > t`: NaN compares False. -/
def cellGtConst (c : Option Value) (t : ℚ) : Bool :=
  match c with
  | some (.num x) => t < x
  | _ => false

/-- `pd.to_numeric(·, errors='coerce')` on a cell.  Parsing of numeral
strings is not modelled (no verified property feeds numeral strings into a
numeric coercion); any cell that is not already a number or a boolean
coerces to NaN. -/
def toNumericCell : Option Value → Option Value
  | some (.num q) => some (.num q)
  | some (.boolean b) => some (.num (if b then 1 else 0))
  | _ => none

/-- Is the cell an integral number (or null)?  Governs whether
`.astype('Int64')` succeeds on the column. -/
def isIntegralCell : Option Value → Bool
  | some (.num q) => q.den = 1
  | none => true
  | _ => false

/-- `Series.astype(str)`: NaN renders as the string `"nan"`.  Python's
decimal rendering of non-string scalars is not modelled (no verified
property depends on it). -/
def astypeStrCell : Option Value → Option Value
  | some (.str s) => some (.str s)
  | none => some (.str "nan")
  | some _ => some (.str "<scalar>")

/-! ### Named-column frame operations -/

/-- Read the cell of the column named `n` in row `r` of a frame with `df`'s
header (NaN if no such column; the source would raise a `KeyError` there,
which no verified property exercises). -/
def cellOf (df : DataFrame) (n : String) (r : List (Option Value)) : Option Value :=
  match colIdx df n with
  | some i => cellAt r i
  | none => none

/-- Column assignment `df[n] = <series>`: overwrite the column if it exists
(recording the assigned series' dtype), append it otherwise.  The assigned
series is a per-row function of the frame before assignment. -/
def setColumn (df : DataFrame) (n : String) (dt : DType)
    (f : List (Option Value) → Option Value) : DataFrame :=
  match colIdx df n with
  | some i =>
    { cols := df.cols.set i ⟨n, dt⟩,
      rows := df.rows.map (fun r => r.set i (f r)) }
  | none =>
    { cols := df.cols ++ [⟨n, dt⟩],
      rows := df.rows.map (fun r => r ++ [f r]) }

/-- `df.drop([n], axis=1)` for one column. -/
def dropColumn (df : DataFrame) (n : String) : DataFrame :=
  match colIdx df n with
  | some i =>
    { cols := df.cols.eraseIdx i,
      rows := df.rows.map (fun r => r.eraseIdx i) }
  | none => df

/-- Boolean-mask row filtering `df[mask]`. -/
def filterRows (df : DataFrame) (p : List (Option Value) → Bool) : DataFrame :=
  { df with rows := df.rows.filter p }

/-- Replace column `i` with new cells and dtype, keeping its name. -/
def updateColAt (df : DataFrame) (i : ℕ) (cells : List (Option Value)) (dt : DType) :
    DataFrame :=
  { cols := df.cols.set i ⟨(df.cols.getD i ⟨"", .obj⟩).name, dt⟩,
    rows := (setColCells df i cells).rows }

/-! ### `_validate_data_types` -/

/-- One `(column, expected_type)` entry of `_validate_data_types`: if the
column is present, coerce it.  An `'int'` column is run through
`pd.to_numeric(errors='coerce').astype('Int64')`; when some coerced value is
non-integral the cast raises, the exception is caught and logged, and the
column keeps its previous content. -/
def validateColStep (d : DataFrame) (p : String × String) : DataFrame :=
  match colIdx d p.1 with
  | none => d
  | some i =>
    let col := getColCells d i
    if p.2 = "int" then
      let c2 := col.map toNumericCell
      if c2.all isIntegralCell then updateColAt d i c2 .int else d
    else if p.2 = "float" then updateColAt d i (col.map toNumericCell) .float
    else if p.2 = "datetime" then updateColAt d i (col.map toDatetimeCell) .datetime
    else if p.2 = "str" then updateColAt d i (col.map astypeStrCell) .obj
    else d

/-- `_validate_data_types`: coerce each configured column in order. -/
def validateDataTypes (types : List (String × String)) (df : DataFrame) : DataFrame :=
  types.foldl validateColStep df

/-- The `validation.data_types` configuration shipped with the repository's
test suite (`tests/test_etl_pipeline.py`) for the `ventas` table. -/
def ventasTypes : List (String × String) :=
  [("id", "int"), ("fecha", "datetime"), ("producto_id", "int"),
   ("cliente_id", "int"), ("cantidad", "int"), ("precio", "float")]

/-- Same, for `productos`. -/
def productosTypes : List (String × String) :=
  [("id", "int"), ("nombre", "str"), ("categoria", "str"), ("precio", "float")]

/-- Same, for `clientes`. -/
def clientesTypes : List (String × String) :=
  [("id", "int"), ("nombre", "str"), ("email", "str"), ("ciudad", "str")]

/-! ### `_transform_ventas` -/

/-- Lines 100-113 of `_transform_ventas`: create the total column as
`cantidad * precio` when absent; otherwise recompute it, and overwrite it
wherever the absolute difference from the supplied total exceeds the 0.01
threshold, dropping the two temporary columns afterwards. -/
def reconcileTotalStep (df : DataFrame) : DataFrame :=
  match colIdx df "total" with
  | none =>
    setColumn df "total" .float
      (fun r => cellMul (cellOf df "cantidad" r) (cellOf df "precio" r))
  | some _ =>
    let d1 := setColumn df "total_calculado" .float
      (fun r => cellMul (cellOf df "cantidad" r) (cellOf df "precio" r))
    let d2 := setColumn d1 "total_diferencia" .float
      (fun r => cellAbs (cellSub (cellOf d1 "total" r) (cellOf d1 "total_calculado" r)))
    let d3 := setColumn d2 "total" .float
      (fun r =>
        if cellGtConst (cellOf d2 "total_diferencia" r) (mkRat 1 100) then
          cellOf d2 "total_calculado" r
        else cellOf d2 "total" r)
    dropColumn (dropColumn d3 "total_calculado") "total_diferencia"

/-- The date-decomposition lines of `_transform_ventas`: parse `fecha` and
derive `mes`, `año`, `dia_semana`. -/
def ventasDateStep (df : DataFrame) : DataFrame :=
  let d1 := setColumn df "fecha" .datetime (fun r => toDatetimeCell (cellOf df "fecha" r))
  let d2 := setColumn d1 "mes" .int (fun r => dtMonthCell (cellOf d1 "fecha" r))
  let d3 := setColumn d2 "año" .int (fun r => dtYearCell (cellOf d2 "fecha" r))
  setColumn d3 "dia_semana" .obj (fun r => dtDayNameCell (cellOf d3 "fecha" r))

/-- The business rules of `_transform_ventas` (everything before the
`_clean_dataframe` call): date decomposition, then total reconciliation. -/
def ventasRules (df : DataFrame) : DataFrame :=
  reconcileTotalStep (ventasDateStep df)

/-- `_transform_ventas`: business rules, then `_clean_dataframe`, then
`_validate_data_types`. -/
def transformVentas (pol : CleaningPolicy) (df : DataFrame) : DataFrame :=
  validateDataTypes ventasTypes (cleanDataFrame pol (ventasRules df))

/-- Modelled from the spec: the composition the specification describes for
kind-specific transforms — the Cleaning Engine "internally first (so cleaning
policy always precedes business rules), then apply kind rules, then re-run
type coercion".  Used only to compare against `transformVentas`. -/
def transformVentasSpecOrder (pol : CleaningPolicy) (df : DataFrame) : DataFrame :=
  validateDataTypes ventasTypes (ventasRules (cleanDataFrame pol df))

/-! ### `_transform_productos` -/

/-- The business rules of `_transform_productos`: trim/title-case `nombre`
and `categoria`, clean `descripcion` when present, coerce `precio` to numeric
and keep only rows with positive price. -/
def productosRules (df : DataFrame) : DataFrame :=
  let d1 := setColumn df "nombre" .obj (fun r => strCellMap stripStr (cellOf df "nombre" r))
  let d2 := setColumn d1 "nombre" .obj (fun r => strCellMap titleStr (cellOf d1 "nombre" r))
  let d3 := setColumn d2 "categoria" .obj (fun r => strCellMap stripStr (cellOf d2 "categoria" r))
  let d4 := setColumn d3 "categoria" .obj (fun r => strCellMap titleStr (cellOf d3 "categoria" r))
  let d5 :=
    match colIdx d4 "descripcion" with
    | some _ =>
      let da := setColumn d4 "descripcion" .obj
        (fun r => strCellMap stripStr (cellOf d4 "descripcion" r))
      setColumn da "descripcion" .obj
        (fun r => fillnaCell (.str "Sin descripción") (cellOf da "descripcion" r))
    | none => d4
  let d6 := setColumn d5 "precio" .float (fun r => toNumericCell (cellOf d5 "precio" r))
  filterRows d6 (fun r => cellGtConst (cellOf d6 "precio" r) 0)

/-- `_transform_productos`: business rules, then cleaning, then type
validation. -/
def transformProductos (pol : CleaningPolicy) (df : DataFrame) : DataFrame :=
  validateDataTypes productosTypes (cleanDataFrame pol (productosRules df))

/-! ### `_transform_clientes` -/

/-- The business rules of `_transform_clientes`: trim/title-case `nombre`,
lower-case and trim `email` and drop every record whose email does not
contain `'@'` (`str.contains('@', na=False)`: null or non-string emails are
dropped too), trim/title-case `ciudad`, parse `fecha_registro` if present. -/
def clientesRules (df : DataFrame) : DataFrame :=
  let d1 := setColumn df "nombre" .obj (fun r => strCellMap stripStr (cellOf df "nombre" r))
  let d2 := setColumn d1 "nombre" .obj (fun r => strCellMap titleStr (cellOf d1 "nombre" r))
  let d3 := setColumn d2 "email" .obj
    (fun r => strCellMap stripStr (strCellMap lowerStr (cellOf d2 "email" r)))
  let d4 := filterRows d3
    (fun r =>
      match cellOf d3 "email" r with
      | some (.str s) => strContainsChar s '@'
      | _ => false)
  let d5 := setColumn d4 "ciudad" .obj (fun r => strCellMap stripStr (cellOf d4 "ciudad" r))
  let d6 := setColumn d5 "ciudad" .obj (fun r => strCellMap titleStr (cellOf d5 "ciudad" r))
  match colIdx d6 "fecha_registro" with
  | some _ =>
    setColumn d6 "fecha_registro" .datetime
      (fun r => toDatetimeCell (cellOf d6 "fecha_registro" r))
  | none => d6

/-- `_transform_clientes`: business rules, then cleaning, then type
validation. -/
def transformClientes (pol : CleaningPolicy) (df : DataFrame) : DataFrame :=
  validateDataTypes clientesTypes (cleanDataFrame pol (clientesRules df))

/-! ### `_create_derived_tables`: the `ventas_por_producto` rollup

`ventas.groupby('producto_id')` groups by the distinct non-null keys in
ascending order (pandas `sort=True` default, null keys excluded), aggregates
`cantidad` and `total` by NaN-skipping sum and `id` by non-null count, then
enriches by `merge(productos[['id','nombre','categoria']], left_index=True,
right_on='id')` — pandas' default `how='inner'` join. -/

def groupKeys (df : DataFrame) (i : ℕ) : List ℚ :=
  (dedupKeepFirst ((getColCells df i).filterMap cellToNum)).insertionSort (· ≤ ·)

def rowsWithKey (df : DataFrame) (i : ℕ) (k : ℚ) : List (List (Option Value)) :=
  df.rows.filter (fun r => cellAt r i = some (.num k))

/-- pandas `'sum'` aggregation: NaN values are skipped, an empty sum is 0. -/
def sumAgg (cells : List (Option Value)) : ℚ :=
  (cells.filterMap cellToNum).foldl qAdd 0

/-- pandas `'count'` aggregation: number of non-null cells. -/
def countAgg (cells : List (Option Value)) : ℕ :=
  cells.countP (fun c => c ≠ none)

/-- The aggregate row for one group key: summed `cantidad`, summed `total`,
and the `id` count renamed `num_ventas`. -/
def aggRowFor (ventas : DataFrame) (ip ic it iid : ℕ) (k : ℚ) : List (Option Value) :=
  let rs := rowsWithKey ventas ip k
  [some (.num (sumAgg (rs.map (fun r => cellAt r ic)))),
   some (.num (sumAgg (rs.map (fun r => cellAt r it)))),
   some (.num (qNat (countAgg (rs.map (fun r => cellAt r iid)))))]

/-- The `ventas_por_producto` derived table.  The output dtypes are inert
(derived tables are loaded directly, never re-cleaned). -/
def ventasPorProducto (ventas productos : DataFrame) : DataFrame :=
  match colIdx ventas "producto_id", colIdx ventas "cantidad", colIdx ventas "total",
      colIdx ventas "id", colIdx productos "id", colIdx productos "nombre",
      colIdx productos "categoria" with
  | some ip, some ic, some it, some iid, some pid, some pn, some pc =>
    { cols := [⟨"cantidad", .float⟩, ⟨"total", .float⟩, ⟨"num_ventas", .int⟩,
               ⟨"id", .int⟩, ⟨"nombre", .obj⟩, ⟨"categoria", .obj⟩],
      rows := (groupKeys ventas ip).flatMap (fun k =>
        (productos.rows.filter (fun pr => cellAt pr pid = some (.num k))).map
          (fun pr => aggRowFor ventas ip ic it iid k ++
            [cellAt pr pid, cellAt pr pn, cellAt pr pc])) }
  | _, _, _, _, _, _, _ => ⟨[], []⟩

/-! ### `DataExtractor._extract_csv_files` and
`ScraperManager.scrape_all_competitors`

The filesystem/HTTP boundary is modelled as a list of named source outcomes
(success with a frame, or a raised exception). -/

/-- pandas `df.empty`. -/
def dfEmpty (df : DataFrame) : Bool :=
  df.rows.isEmpty || df.cols.isEmpty

/-- The per-file loop of `_extract_csv_files`: a file whose read raises is
logged and skipped (`continue`), an empty frame is warned about and skipped,
every other frame enters the result mapping under the file stem. -/
def extractCsvFiles : List (String × Except String DataFrame) → List (String × DataFrame)
  | [] => []
  | (_, .error _) :: rest => extractCsvFiles rest
  | (n, .ok df) :: rest =>
    if dfEmpty df then extractCsvFiles rest else (n, df) :: extractCsvFiles rest

/-- `scrape_all_competitors`: one entry per submitted competitor; a competitor
whose scrape raises is recorded as an empty product list (both the
`_scrape_competitor` handler and the `future.result()` handler produce `[]`).
The thread-pool completion order only affects dictionary insertion order, not
the resulting name→products mapping, so entries are modelled in submission
order; the per-product `scraped_by`/`scraped_at` wall-clock tagging is not
modelled. -/
def scrapeAllCompetitors {α : Type} (outcomes : List (String × Except String (List α))) :
    List (String × List α) :=
  outcomes.map (fun o =>
    match o.2 with
    | .ok ps => (o.1, ps)
    | .error _ => (o.1, []))

/-! ### `DataLoader.load_all` / `_load_table` -/

/-- A persistence request handed to `DataFrame.to_sql`. -/
structure SinkRequest where
  name : String
  mode : String
  data : DataFrame
deriving DecidableEq, Repr

def vppMapping : List (String × String) :=
  [("id", "producto_id"), ("cantidad", "cantidad_total"), ("total", "total_ventas"),
   ("num_ventas", "num_ventas"), ("nombre", "nombre_producto")]

def vpcMapping : List (String × String) :=
  [("id", "cliente_id"), ("cantidad", "cantidad_total"), ("total", "total_compras"),
   ("num_ventas", "num_compras"), ("nombre", "nombre_cliente")]

def renameCols (m : List (String × String)) (df : DataFrame) : DataFrame :=
  { df with cols := df.cols.map (fun c =>
      match m.lookup c.name with
      | some n2 => ⟨n2, c.dtype⟩
      | none => c) }

/-- Day-granularity rendering of a timestamp for SQLite insertion
(`dt.strftime('%Y-%m-%d %H:%M:%S')`; the embedding carries no time of day). -/
def fechaStr (d : Fecha) : String :=
  toString d.year ++ "-" ++ toString d.month ++ "-" ++ toString d.day ++ " 00:00:00"

def sqliteConvCell (c : Col) (cell : Option Value) : Option Value :=
  match c.dtype, cell with
  | .boolT, some (.boolean b) => some (.num (if b then 1 else 0))
  | .datetime, some (.date d) => some (.str (fechaStr d))
  | _, cell => cell

/-- `_prepare_data_for_insertion`: rename the derived-table columns, then
convert bool columns to int and datetime columns to strings for SQLite. -/
def prepareDataForInsertion (tname : String) (df : DataFrame) : DataFrame :=
  let d1 :=
    if tname = "ventas_por_producto" then renameCols vppMapping df
    else if tname = "ventas_por_cliente" then renameCols vpcMapping df
    else df
  { cols := d1.cols.map (fun c =>
      match c.dtype with
      | .boolT => ⟨c.name, .int⟩
      | .datetime => ⟨c.name, .obj⟩
      | _ => c),
    rows := d1.rows.map (fun r => List.zipWith sqliteConvCell d1.cols r) }

/-- `_load_table`: an empty frame is skipped with success; otherwise one
`to_sql(..., if_exists='replace')` request is issued and its success is
whatever the external sink reports (a raised exception is caught and
reported as `False`). -/
def loadTable (sink : SinkRequest → Bool) (tname : String) (df : DataFrame) :
    Bool × List SinkRequest :=
  if dfEmpty df then (true, [])
  else
    let req : SinkRequest := ⟨tname, "replace", prepareDataForInsertion tname df⟩
    (sink req, [req])

/-- The per-table loop of `load_all`: on the first table whose load reports
failure the loop logs and `return False`s; the requests actually issued are
collected for the statement of the batch properties. -/
def loadAllGo (sink : SinkRequest → Bool) :
    List (String × DataFrame) → Bool × List SinkRequest
  | [] => (true, [])
  | (n, df) :: rest =>
    let res := loadTable sink n df
    if res.1 then
      let tail := loadAllGo sink rest
      (tail.1, res.2 ++ tail.2)
    else (false, res.2)

/-- `load_all` (its table-loading loop; connection setup, index creation and
the statistics file are outside the verified properties). -/
def loadAll (sink : SinkRequest → Bool) (tables : List (String × DataFrame)) :
    Bool × List SinkRequest :=
  loadAllGo sink tables

/-! ### Concrete data used by counterexamples and witnesses -/

def sampleFecha : Fecha := ⟨2024, 1, 15, "Monday"⟩

/-- A one-column frame with a value followed by a null. -/
def c5df : DataFrame := ⟨[⟨"x", .float⟩], [[some (.num 0)], [none]]⟩

/-- The repository's default cleaning configuration (duplicates removed,
forward fill, outliers section absent). -/
def c5pol : CleaningPolicy := ⟨true, "forward", 0, .str "Unknown", "", mkRat 3 2⟩

def c5wdf : DataFrame := ⟨[⟨"x", .float⟩], [[some (.num 3)], [none], [some (.num 7)]]⟩

def c5wpol : CleaningPolicy := ⟨false, "forward", 0, .str "Unknown", "", mkRat 3 2⟩

def c6df : DataFrame := ⟨[⟨"x", .float⟩], [[some (.num 5)], [none]]⟩

def c6pol : CleaningPolicy := c5pol

def c10wdf : DataFrame :=
  ⟨[⟨"x", .float⟩, ⟨"s", .obj⟩],
   [[some (.num 2), none], [none, some (.str "a")]]⟩

def c10wpol : CleaningPolicy := ⟨false, "median", 7, .str "Unknown", "", mkRat 3 2⟩

/-- Three-value numeric column for the IQR claims. -/
def c2df : DataFrame :=
  ⟨[⟨"x", .float⟩], [[some (.num 0)], [some (.num 0)], [some (.num 100)]]⟩

def c2wcol : List (Option Value) := [some (.num 4), none, some (.num 10), some (.num 6)]

def c2wdf : DataFrame := ⟨[⟨"x", .float⟩, ⟨"y", .obj⟩],
  [[some (.num 4), some (.str "a")], [some (.num 10), none], [some (.num 6), none]]⟩

/-- The standard sales layout (with a supplied total column), as in the test
fixture. -/
def ventasColsT : List Col :=
  [⟨"id", .int⟩, ⟨"fecha", .obj⟩, ⟨"producto_id", .int⟩, ⟨"cliente_id", .int⟩,
   ⟨"cantidad", .int⟩, ⟨"precio", .float⟩, ⟨"total", .float⟩]

/-- Executable check of the reconciliation invariant on one sales record:
`|total - cantidad * precio| <= 0.01` (false when any of the three cells is
not a number). -/
def ventasRowReconciled (r : List (Option Value)) : Bool :=
  match cellAt r 4, cellAt r 5, cellAt r 6 with
  | some (.num c), some (.num p), some (.num t) =>
    qAbs (qSub t (qMul c p)) ≤ mkRat 1 100
  | _, _, _ => false

def ventasReconciled (df : DataFrame) : Bool :=
  df.rows.all ventasRowReconciled

/-- Sales frame whose supplied total is null (`NaN`): the reconciliation mask
is False there, so the null survives into the cleaning stage. -/
def c4df : DataFrame :=
  ⟨ventasColsT,
   [[some (.num 1), some (.date sampleFecha), some (.num 101), some (.num 1001),
     some (.num 2), some (.num 10), none]]⟩

/-- Constant-fill policy (an unrecognized strategy string falls into the
constant branch), outliers disabled. -/
def c4pol : CleaningPolicy := ⟨true, "constant", 0, .str "Unknown", "", mkRat 3 2⟩

/-- Well-typed sales frame: totals supplied, one exact, one 999-off. -/
def c4wdf : DataFrame :=
  ⟨ventasColsT,
   [[some (.num 1), some (.date sampleFecha), some (.num 101), some (.num 1001),
     some (.num 2), some (.num 10), some (.num 999)],
    [some (.num 2), some (.date sampleFecha), some (.num 102), some (.num 1002),
     some (.num 1), some (.num 50), some (.num 50)]]⟩

def c4wpol : CleaningPolicy := ⟨true, "forward", 0, .str "Unknown", "", mkRat 3 2⟩

def c3df : DataFrame := c4df

def c3pol : CleaningPolicy := c4pol

/-- Sales with a group key (999) that has no matching product. -/
def c1ventas : DataFrame :=
  ⟨[⟨"id", .int⟩, ⟨"producto_id", .int⟩, ⟨"cantidad", .int⟩, ⟨"total", .float⟩],
   [[some (.num 1), some (.num 999), some (.num 2), some (.num 20)]]⟩

def c1productos : DataFrame :=
  ⟨[⟨"id", .int⟩, ⟨"nombre", .obj⟩, ⟨"categoria", .obj⟩],
   [[some (.num 101), some (.str "Laptop"), some (.str "Electronica")]]⟩

/-- Matched variant: the sale's product 101 exists in the dimension table. -/
def c1wventas : DataFrame :=
  ⟨[⟨"id", .int⟩, ⟨"producto_id", .int⟩, ⟨"cantidad", .int⟩, ⟨"total", .float⟩],
   [[some (.num 1), some (.num 101), some (.num 2), some (.num 20)],
    [some (.num 2), some (.num 101), some (.num 1), some (.num 5)],
    [some (.num 3), some (.num 999), some (.num 1), some (.num 7)]]⟩

def c1wproductos : DataFrame := c1productos

def c7outcomes : List (String × Except String (List Value)) :=
  [("amazon", .error "SourceUnavailable"), ("mercadolibre", .ok [.str "p1"])]

def c7wsources : List (String × Except String DataFrame) :=
  [("ventas", .ok ⟨[⟨"id", .int⟩], [[some (.num 1)]]⟩),
   ("productos", .error "SourceUnavailable")]

def c8table : DataFrame := ⟨[⟨"a", .int⟩], [[some (.num 1)]]⟩

def c8sink : SinkRequest → Bool := fun req => req.name != "t1"

def c8wsink : SinkRequest → Bool := fun req => req.name != "bad"

/-- Standard customer layout (the test fixture's columns). -/
def clientesCols : List Col :=
  [⟨"id", .int⟩, ⟨"nombre", .obj⟩, ⟨"email", .obj⟩, ⟨"ciudad", .obj⟩,
   ⟨"telefono", .obj⟩, ⟨"fecha_registro", .obj⟩]

def c9wdf : DataFrame :=
  ⟨clientesCols,
   [[some (.num 1), some (.str " juan perez "), some (.str " Juan@Email.com "),
     some (.str "madrid"), some (.str "600123456"), some (.date sampleFecha)],
    [some (.num 2), some (.str "ana"), none, some (.str "bilbao"),
     some (.str "600"), some (.date sampleFecha)],
    [some (.num 3), some (.str "luis"), some (.str "BAD EMAIL"), some (.str "vigo"),
     some (.str "601"), some (.date sampleFecha)]]⟩

def c9wpol : CleaningPolicy := ⟨true, "forward", 0, .str "Unknown", "iqr", mkRat 3 2⟩

/-! ## Helper lemmas: generic list facts -/

section ListLemmas

variable {α β γ : Type}

theorem getD_map_pos (f : α → β) (l : List α) (j : ℕ) (d : β) (d0 : α)
    (hj : j < l.length) : (l.map f).getD j d = f (l.getD j d0) := by
  induction l generalizing j with
  | nil => simp at hj
  | cons x xs ih =>
    cases j with
    | zero => simp
    | succ j =>
      simp only [List.map_cons, List.getD_cons_succ]
      exact ih j (by simpa using hj)

theorem getD_zipWith_pos (f : α → β → γ) (as : List α) (bs : List β) (j : ℕ)
    (d : γ) (da : α) (db : β) (ha : j < as.length) (hb : j < bs.length) :
    (List.zipWith f as bs).getD j d = f (as.getD j da) (bs.getD j db) := by
  induction as generalizing bs j with
  | nil => simp at ha
  | cons a as ih =>
    cases bs with
    | nil => simp at hb
    | cons b bs =>
      cases j with
      | zero => simp
      | succ j =>
        simp only [List.zipWith_cons_cons, List.getD_cons_succ]
        exact ih bs j (by simpa using ha) (by simpa using hb)

theorem getD_of_length_le (l : List α) (j : ℕ) (d : α) (h : l.length ≤ j) :
    l.getD j d = d := by
  induction l generalizing j with
  | nil => simp
  | cons x xs ih =>
    cases j with
    | zero => simp at h
    | succ j =>
      simp only [List.getD_cons_succ]
      exact ih j (by simpa using h)

theorem getD_set_ne (l : List α) (k : ℕ) (v : α) (i : ℕ) (d : α) (h : i ≠ k) :
    (l.set k v).getD i d = l.getD i d := by
  induction l generalizing i k with
  | nil => simp
  | cons x xs ih =>
    cases k with
    | zero =>
      cases i with
      | zero => exact absurd rfl h
      | succ i => simp
    | succ k =>
      cases i with
      | zero => simp
      | succ i =>
        simp only [List.set_cons_succ, List.getD_cons_succ]
        exact ih k i (fun he => h (by simp [he]))

theorem getD_set_eq_of_lt (l : List α) (k : ℕ) (v : α) (d : α) (h : k < l.length) :
    (l.set k v).getD k d = v := by
  induction l generalizing k with
  | nil => simp at h
  | cons x xs ih =>
    cases k with
    | zero => simp
    | succ k =>
      simp only [List.set_cons_succ, List.getD_cons_succ]
      exact ih k (by simpa using h)

theorem set_getD_self (l : List α) (k : ℕ) (d : α) :
    l.set k (l.getD k d) = l := by
  induction l generalizing k with
  | nil => simp
  | cons x xs ih =>
    cases k with
    | zero => simp
    | succ k =>
      simp only [List.getD_cons_succ, List.set_cons_succ]
      rw [ih k]

theorem getD_pos_ne_default_lt (l : List α) (j : ℕ) (d : α)
    (h : l.getD j d ≠ d) : j < l.length := by
  by_contra hle
  exact h (getD_of_length_le l j d (le_of_not_lt hle))

theorem getD_append_left (l l2 : List α) (j : ℕ) (d : α) (h : j < l.length) :
    (l ++ l2).getD j d = l.getD j d := by
  induction l generalizing j with
  | nil => simp at h
  | cons x xs ih =>
    cases j with
    | zero => simp
    | succ j =>
      simp only [List.cons_append, List.getD_cons_succ]
      exact ih j (by simpa using h)

theorem getD_eraseIdx_lt (l : List α) (k : ℕ) (j : ℕ) (d : α) (h : j < k) :
    (l.eraseIdx k).getD j d = l.getD j d := by
  induction l generalizing j k with
  | nil => simp
  | cons x xs ih =>
    cases k with
    | zero => simp at h
    | succ k =>
      cases j with
      | zero => simp [List.eraseIdx]
      | succ j =>
        simp only [List.eraseIdx, List.getD_cons_succ]
        exact ih k j (by simpa using h)

end ListLemmas

/-! ## Helper lemmas: duplicate removal -/

section DedupLemmas

variable {α : Type} [DecidableEq α]

theorem dedupKeepFirstAux_sublist (seen : List α) (l : List α) :
    (dedupKeepFirstAux seen l).Sublist l := by
  induction l generalizing seen with
  | nil => simp [dedupKeepFirstAux]
  | cons x xs ih =>
    by_cases hx : x ∈ seen
    · simp only [dedupKeepFirstAux, if_pos hx]
      exact (ih seen).cons x
    · simp only [dedupKeepFirstAux, if_neg hx]
      exact (ih (x :: seen)).cons₂ x

theorem dedupKeepFirstAux_nodup (seen : List α) (l : List α) :
    (dedupKeepFirstAux seen l).Nodup ∧ ∀ x ∈ dedupKeepFirstAux seen l, x ∉ seen := by
  induction l generalizing seen with
  | nil => simp [dedupKeepFirstAux]
  | cons x xs ih =>
    by_cases hx : x ∈ seen
    · simpa only [dedupKeepFirstAux, if_pos hx] using ih seen
    · simp only [dedupKeepFirstAux, if_neg hx]
      obtain ⟨hnd, hns⟩ := ih (x :: seen)
      refine ⟨List.nodup_cons.mpr ⟨fun hxm => (hns x hxm) (List.mem_cons_self x seen), hnd⟩, ?_⟩
      intro y hy
      rcases List.mem_cons.mp hy with rfl | hy2
      · exact hx
      · exact fun hys => (hns y hy2) (List.mem_cons_of_mem x hys)

theorem dedupKeepFirst_sublist (l : List α) : (dedupKeepFirst l).Sublist l :=
  dedupKeepFirstAux_sublist [] l

theorem dedupKeepFirst_nodup (l : List α) : (dedupKeepFirst l).Nodup :=
  (dedupKeepFirstAux_nodup [] l).1

theorem mem_dedupKeepFirstAux (seen : List α) (l : List α) (x : α) :
    x ∈ l → x ∉ seen → x ∈ dedupKeepFirstAux seen l := by
  induction l generalizing seen with
  | nil => intro hx _; simp at hx
  | cons y ys ih =>
    intro hx hs
    by_cases hy : y ∈ seen
    · simp only [dedupKeepFirstAux, if_pos hy]
      rcases List.mem_cons.mp hx with rfl | hx2
      · exact absurd hy hs
      · exact ih seen hx2 hs
    · simp only [dedupKeepFirstAux, if_neg hy]
      rcases List.mem_cons.mp hx with rfl | hx2
      · exact List.mem_cons_self _ _
      · by_cases hxy : x = y
        · subst hxy; exact List.mem_cons_self _ _
        · exact List.mem_cons_of_mem _ (ih (y :: seen) hx2 (by simp [hs, hxy]))

theorem mem_dedupKeepFirst_iff (l : List α) (x : α) :
    x ∈ dedupKeepFirst l ↔ x ∈ l :=
  ⟨fun h => (dedupKeepFirst_sublist l).mem h,
   fun h => mem_dedupKeepFirstAux [] l x h (by simp)⟩

theorem dedupKeepFirstAux_seen_congr (s1 s2 : List α) (l : List α)
    (h : ∀ a, a ∈ s1 ↔ a ∈ s2) :
    dedupKeepFirstAux s1 l = dedupKeepFirstAux s2 l := by
  induction l generalizing s1 s2 with
  | nil => rfl
  | cons x xs ih =>
    by_cases hx : x ∈ s1
    · simp only [dedupKeepFirstAux, if_pos hx, if_pos ((h x).mp hx)]
      exact ih s1 s2 h
    · simp only [dedupKeepFirstAux, if_neg hx, if_neg (fun h2 => hx ((h x).mpr h2))]
      refine congrArg (x :: ·) (ih (x :: s1) (x :: s2) fun a => ?_)
      simp [h a]

theorem dedupKeepFirstAux_insert_filter (x : α) (seen : List α) (l : List α) :
    dedupKeepFirstAux (x :: seen) l =
      dedupKeepFirstAux seen (l.filter (fun y => y ≠ x)) := by
  induction l generalizing seen with
  | nil => rfl
  | cons y ys ih =>
    by_cases hyx : y = x
    · subst hyx
      simp only [dedupKeepFirstAux, List.mem_cons, true_or, if_pos, List.filter_cons]
      have : (decide (y ≠ y)) = false := by simp
      rw [this]
      simp only [Bool.false_eq_true, if_neg (by simp : ¬False)]
      exact ih seen
    · simp only [List.filter_cons]
      have hdec : (decide (y ≠ x)) = true := by simp [hyx]
      rw [hdec]
      simp only [if_pos trivial]
      by_cases hy : y ∈ seen
      · simp only [dedupKeepFirstAux, List.mem_cons, if_pos (Or.inr hy), if_pos hy]
        exact ih seen
      · have hnot : y ∉ x :: seen := by simp [hyx, hy]
        simp only [dedupKeepFirstAux, if_neg hnot, if_neg hy]
        refine congrArg (y :: ·) ?_
        rw [dedupKeepFirstAux_seen_congr (y :: x :: seen) (x :: y :: seen) _
          (fun a => by simp; tauto)]
        exact ih (y :: seen)

theorem dedupKeepFirst_cons (x : α) (l : List α) :
    dedupKeepFirst (x :: l) =
      x :: dedupKeepFirst (l.filter (fun y => y ≠ x)) := by
  simp only [dedupKeepFirst, dedupKeepFirstAux, if_neg (List.not_mem_nil x)]
  exact congrArg (x :: ·) (dedupKeepFirstAux_insert_filter x [] l)

end DedupLemmas

/-! ## Helper lemmas: the fill step -/

section FillLemmas

theorem cellAt_pos_of_ne_none (r : List (Option Value)) (i : ℕ)
    (h : cellAt r i ≠ none) : i < r.length :=
  getD_pos_ne_default_lt r i none h

theorem cellAt_of_length_le (r : List (Option Value)) (i : ℕ)
    (h : r.length ≤ i) : cellAt r i = none :=
  getD_of_length_le r i none h

theorem fillRow_length (last r : List (Option Value)) :
    (fillRow last r).length = min r.length last.length := by
  simp [fillRow]

theorem cellAt_fillRow_of_ne_none (last r : List (Option Value)) (i : ℕ)
    (hlen : r.length ≤ last.length) (h : cellAt r i ≠ none) :
    cellAt (fillRow last r) i = cellAt r i := by
  have hi : i < r.length := cellAt_pos_of_ne_none r i h
  have hz := getD_zipWith_pos (fun c l => c.orElse (fun _ => l)) r last i
    none none none hi (lt_of_lt_of_le hi hlen)
  simp only [cellAt] at *
  rw [fillRow, hz]
  obtain ⟨v, hv⟩ := Option.ne_none_iff_exists.mp h
  rw [← hv]
  rfl

theorem ffillRows_length (last : List (Option Value))
    (rs : List (List (Option Value))) :
    (ffillRows last rs).length = rs.length := by
  induction rs generalizing last with
  | nil => rfl
  | cons r rs ih => simp [ffillRows, ih]

theorem ffillRows_pres (n : ℕ) (last : List (Option Value))
    (rs : List (List (Option Value)))
    (hl : last.length = n) (hr : ∀ r ∈ rs, r.length = n) :
    ∀ r2 ∈ ffillRows last rs, ∃ r ∈ rs, r2.length = n ∧
      ∀ i, cellAt r i ≠ none → cellAt r2 i = cellAt r i := by
  induction rs generalizing last with
  | nil => intro r2 h; simp [ffillRows] at h
  | cons r rs ih =>
    intro r2 h2
    have hrn : r.length = n := hr r (List.mem_cons_self _ _)
    have hfl : (fillRow last r).length = n := by
      rw [fillRow_length, hrn, hl, min_self]
    rcases List.mem_cons.mp h2 with rfl | htail
    · exact ⟨r, List.mem_cons_self _ _, hfl,
        fun i hi => cellAt_fillRow_of_ne_none last r i (by omega) hi⟩
    · obtain ⟨r0, hr0, hlen, hpres⟩ :=
        ih (fillRow last r) hfl (fun r h => hr r (List.mem_cons_of_mem _ h)) r2 htail
      exact ⟨r0, List.mem_cons_of_mem _ hr0, hlen, hpres⟩

theorem constFill_row_pres (pol : CleaningPolicy) (cols : List Col)
    (r : List (Option Value)) (hrn : r.length = cols.length) (i : ℕ)
    (hi : cellAt r i ≠ none) :
    cellAt (List.zipWith (fun (c : Col) cell => fillCellConst pol c.dtype cell) cols r) i =
      cellAt r i := by
  have hil : i < r.length := cellAt_pos_of_ne_none r i hi
  have hz := getD_zipWith_pos (fun (c : Col) cell => fillCellConst pol c.dtype cell)
    cols r i none ⟨"", .obj⟩ none (by omega) hil
  simp only [cellAt] at *
  rw [hz]
  obtain ⟨v, hv⟩ := Option.ne_none_iff_exists.mp hi
  rw [← hv]
  rfl

theorem fillMissingStep_cols (pol : CleaningPolicy) (df : DataFrame) :
    (fillMissingStep pol df).cols = df.cols := by
  rw [fillMissingStep]
  split <;> [rfl; skip]
  split <;> rfl

theorem fillMissingStep_rows_length (pol : CleaningPolicy) (df : DataFrame) :
    (fillMissingStep pol df).rows.length = df.rows.length := by
  rw [fillMissingStep]
  split
  · simp [ffillStep, ffillRows_length]
  · split
    · simp [bfillStep, ffillRows_length]
    · simp [constFillStep]

theorem fillMissingStep_pres (pol : CleaningPolicy) (df : DataFrame)
    (hr : ∀ r ∈ df.rows, r.length = df.cols.length) :
    ∀ r2 ∈ (fillMissingStep pol df).rows, ∃ r ∈ df.rows,
      r2.length = df.cols.length ∧
      ∀ i, cellAt r i ≠ none → cellAt r2 i = cellAt r i := by
  intro r2 h2
  rw [fillMissingStep] at h2
  split at h2
  · exact ffillRows_pres df.cols.length (noneRow df) df.rows (by simp [noneRow]) hr r2 h2
  · split at h2
    · simp only [bfillStep, List.mem_reverse] at h2
      obtain ⟨r, hrm, hlen, hpres⟩ := ffillRows_pres df.cols.length (noneRow df)
        df.rows.reverse (by simp [noneRow])
        (fun r h => hr r (List.mem_reverse.mp h)) r2 h2
      exact ⟨r, List.mem_reverse.mp hrm, hlen, hpres⟩
    · simp only [constFillStep, List.mem_map] at h2
      obtain ⟨r, hrm, hre⟩ := h2
      refine ⟨r, hrm, ?_, ?_⟩
      · rw [← hre]
        simp [List.length_zipWith, hr r hrm]
      · intro i hi
        rw [← hre]
        exact constFill_row_pres pol df.cols r (hr r hrm) i hi

end FillLemmas

/-! ## Helper lemmas: the outlier step -/

section OutlierLemmas

theorem clampColumnIQR_length (t : ℚ) (col : List (Option Value)) :
    (clampColumnIQR t col).length = col.length := by
  rw [clampColumnIQR]
  split
  · rfl
  · dsimp only
    split <;> simp

theorem getColCells_length (df : DataFrame) (i : ℕ) :
    (getColCells df i).length = df.rows.length := by
  simp [getColCells]

theorem clampFrameCol_cols (t : ℚ) (d : DataFrame) (k : ℕ) :
    (clampFrameCol t d k).cols = d.cols := rfl

theorem clampFrameCol_rows_length (t : ℚ) (d : DataFrame) (k : ℕ) :
    (clampFrameCol t d k).rows.length = d.rows.length := by
  simp [clampFrameCol, setColCells, clampColumnIQR_length, getColCells_length]

theorem clampFrameCol_cell_ne (t : ℚ) (d : DataFrame) (k i : ℕ) (hik : i ≠ k) (j : ℕ) :
    cellAt ((clampFrameCol t d k).rows.getD j []) i =
      cellAt (d.rows.getD j []) i := by
  by_cases hj : j < d.rows.length
  · have hcl : j < (clampColumnIQR t (getColCells d k)).length := by
      rw [clampColumnIQR_length, getColCells_length]; exact hj
    have hz := getD_zipWith_pos (fun (r : List (Option Value)) c => r.set k c)
      d.rows (clampColumnIQR t (getColCells d k)) j [] [] none hj hcl
    rw [clampFrameCol, setColCells] at *
    rw [hz, cellAt, getD_set_ne _ _ _ _ _ hik, cellAt]
  · have h1 : (clampFrameCol t d k).rows.length ≤ j := by
      rw [clampFrameCol_rows_length]; omega
    rw [getD_of_length_le _ _ _ h1, getD_of_length_le _ _ _ (by omega)]

theorem foldl_clampFrameCol_cols (t : ℚ) (l : List ℕ) (d : DataFrame) :
    (l.foldl (clampFrameCol t) d).cols = d.cols := by
  induction l generalizing d with
  | nil => rfl
  | cons k ks ih => rw [List.foldl_cons, ih, clampFrameCol_cols]

theorem foldl_clampFrameCol_rows_length (t : ℚ) (l : List ℕ) (d : DataFrame) :
    (l.foldl (clampFrameCol t) d).rows.length = d.rows.length := by
  induction l generalizing d with
  | nil => rfl
  | cons k ks ih => rw [List.foldl_cons, ih, clampFrameCol_rows_length]

theorem foldl_clampFrameCol_cell_ne (t : ℚ) (l : List ℕ) (d : DataFrame) (i : ℕ)
    (h : ∀ k ∈ l, i ≠ k) (j : ℕ) :
    cellAt ((l.foldl (clampFrameCol t) d).rows.getD j []) i =
      cellAt (d.rows.getD j []) i := by
  induction l generalizing d with
  | nil => rfl
  | cons k ks ih =>
    rw [List.foldl_cons, ih _ (fun k2 hk2 => h k2 (List.mem_cons_of_mem _ hk2)),
      clampFrameCol_cell_ne t d k i (h k (List.mem_cons_self _ _)) j]

theorem mem_numColIdxs_isNumeric (df : DataFrame) (k : ℕ) (h : k ∈ numColIdxs df) :
    (df.cols.getD k ⟨"", .obj⟩).dtype.isNumeric = true := by
  rw [numColIdxs] at h
  simpa using List.of_mem_filter h

theorem handleOutliersIQR_cols (t : ℚ) (df : DataFrame) :
    (handleOutliersIQR t df).cols = df.cols :=
  foldl_clampFrameCol_cols t _ df

theorem handleOutliersIQR_rows_length (t : ℚ) (df : DataFrame) :
    (handleOutliersIQR t df).rows.length = df.rows.length :=
  foldl_clampFrameCol_rows_length t _ df

theorem handleOutliersIQR_cell_nonnum (t : ℚ) (df : DataFrame) (i : ℕ)
    (hnn : (df.cols.getD i ⟨"", .obj⟩).dtype.isNumeric = false) (j : ℕ) :
    cellAt ((handleOutliersIQR t df).rows.getD j []) i =
      cellAt (df.rows.getD j []) i := by
  refine foldl_clampFrameCol_cell_ne t _ df i (fun k hk => ?_) j
  intro hik
  subst hik
  rw [mem_numColIdxs_isNumeric df i hk] at hnn
  exact Bool.noConfusion hnn

end OutlierLemmas

/-! ## Helper lemmas: positions and membership -/

section PosLemmas

theorem mem_getD_of_mem {α : Type} (l : List α) (x : α) (d : α) (h : x ∈ l) :
    ∃ j, j < l.length ∧ l.getD j d = x := by
  induction l with
  | nil => simp at h
  | cons y ys ih =>
    rcases List.mem_cons.mp h with rfl | h2
    · exact ⟨0, by simp, rfl⟩
    · obtain ⟨j, hj, he⟩ := ih h2
      exact ⟨j + 1, by simpa using hj, he⟩

theorem getD_mem_of_lt {α : Type} (l : List α) (j : ℕ) (d : α) (h : j < l.length) :
    l.getD j d ∈ l := by
  induction l generalizing j with
  | nil => simp at h
  | cons y ys ih =>
    cases j with
    | zero => simp
    | succ j =>
      simp only [List.getD_cons_succ]
      exact List.mem_cons_of_mem _ (ih j (by simpa using h))

end PosLemmas

/-! ## Helper lemmas: `_clean_dataframe` composition -/

section CleanLemmas

theorem dedupStep_cols (df : DataFrame) : (dedupStep df).cols = df.cols := rfl

theorem dedupStep_mem (df : DataFrame) (r : List (Option Value))
    (h : r ∈ (dedupStep df).rows) : r ∈ df.rows :=
  (mem_dedupKeepFirst_iff df.rows r).mp h

theorem cleanDataFrame_cols (pol : CleaningPolicy) (df : DataFrame) :
    (cleanDataFrame pol df).cols = df.cols := by
  rw [cleanDataFrame]
  split
  · rw [handleOutliersIQR_cols, fillMissingStep_cols]
    split <;> rfl
  · rw [fillMissingStep_cols]
    split <;> rfl

theorem cleanDataFrame_rows_length_eq (pol : CleaningPolicy) (df : DataFrame)
    (h : pol.removeDuplicates = false) :
    (cleanDataFrame pol df).rows.length = df.rows.length := by
  have hnot : ¬ (pol.removeDuplicates = true) := by rw [h]; decide
  rw [cleanDataFrame, if_neg hnot]
  split
  · rw [handleOutliersIQR_rows_length, fillMissingStep_rows_length]
  · rw [fillMissingStep_rows_length]

theorem cleanDataFrame_rows_length_le (pol : CleaningPolicy) (df : DataFrame) :
    (cleanDataFrame pol df).rows.length ≤ df.rows.length := by
  rw [cleanDataFrame]
  have hd : (if pol.removeDuplicates then dedupStep df else df).rows.length ≤
      df.rows.length := by
    split
    · exact (dedupKeepFirst_sublist df.rows).length_le
    · exact le_refl _
  split
  · rw [handleOutliersIQR_rows_length, fillMissingStep_rows_length]; exact hd
  · rw [fillMissingStep_rows_length]; exact hd

/-- Cell preservation through one cleaning pass: every output row comes from
some input row, agreeing with it on every non-null cell of a column that the
outlier step cannot touch (outliers disabled, or non-numeric dtype). -/
theorem cleanDataFrame_cell_pres (pol : CleaningPolicy) (df : DataFrame)
    (hrect : ∀ r ∈ df.rows, r.length = df.cols.length) :
    ∀ r2 ∈ (cleanDataFrame pol df).rows, ∃ r ∈ df.rows,
      ∀ i, (pol.outlierMethod ≠ "iqr" ∨
            (df.cols.getD i ⟨"", .obj⟩).dtype.isNumeric = false) →
        cellAt r i ≠ none → cellAt r2 i = cellAt r i := by
  intro r2 h2
  set d1 := if pol.removeDuplicates then dedupStep df else df with hd1
  have hd1mem : ∀ r ∈ d1.rows, r ∈ df.rows := by
    intro r h
    rw [hd1] at h
    split at h
    · exact dedupStep_mem df r h
    · exact h
  have hd1cols : d1.cols = df.cols := by rw [hd1]; split <;> rfl
  have hd1rect : ∀ r ∈ d1.rows, r.length = d1.cols.length := by
    intro r h
    rw [hd1cols]
    exact hrect r (hd1mem r h)
  rw [cleanDataFrame] at h2
  rw [← hd1] at h2
  split at h2
  · -- outlier clamping runs
    rename_i hiqr
    obtain ⟨j, hj, hje⟩ := mem_getD_of_mem _ r2 [] h2
    rw [handleOutliersIQR_rows_length] at hj
    have hmm : (fillMissingStep pol d1).rows.getD j [] ∈ (fillMissingStep pol d1).rows :=
      getD_mem_of_lt _ j [] hj
    obtain ⟨r, hrm, _, hpres⟩ := fillMissingStep_pres pol d1 hd1rect _ hmm
    refine ⟨r, hd1mem r hrm, fun i hcase hni => ?_⟩
    rcases hcase with hni2 | hnn
    · exact absurd hiqr hni2
    · rw [← hje,
        handleOutliersIQR_cell_nonnum pol.outlierThreshold (fillMissingStep pol d1) i
          (by rw [fillMissingStep_cols, hd1cols]; exact hnn) j]
      exact hpres i hni
  · obtain ⟨r, hrm, _, hpres⟩ := fillMissingStep_pres pol d1 hd1rect r2 h2
    exact ⟨r, hd1mem r hrm, fun i _ hni => hpres i hni⟩

end CleanLemmas

/-! ## Helper lemmas: idempotence of the fill strategies -/

section IdemLemmas

theorem orElse_orElse_self (c l : Option Value) :
    ((c.orElse fun _ => l).orElse fun _ => l) = c.orElse fun _ => l := by
  cases c <;> cases l <;> rfl

theorem fillRow_idem (last r : List (Option Value)) :
    fillRow last (fillRow last r) = fillRow last r := by
  induction r generalizing last with
  | nil => rfl
  | cons c cs ih =>
    cases last with
    | nil => rfl
    | cons l ls =>
      simp only [fillRow, List.zipWith_cons_cons]
      rw [orElse_orElse_self]
      exact congrArg _ (ih ls)

theorem ffillRows_idem (last : List (Option Value)) (rs : List (List (Option Value))) :
    ffillRows last (ffillRows last rs) = ffillRows last rs := by
  induction rs generalizing last with
  | nil => rfl
  | cons r rs ih =>
    simp only [ffillRows]
    rw [fillRow_idem]
    exact congrArg _ (ih (fillRow last r))

theorem ffillStep_idem (df : DataFrame) : ffillStep (ffillStep df) = ffillStep df := by
  simp [ffillStep, noneRow, ffillRows_idem]

theorem bfillStep_idem (df : DataFrame) : bfillStep (bfillStep df) = bfillStep df := by
  simp [bfillStep, noneRow, List.reverse_reverse, ffillRows_idem]

theorem fillCellConst_idem (pol : CleaningPolicy) (dt : DType) (c : Option Value) :
    fillCellConst pol dt (fillCellConst pol dt c) = fillCellConst pol dt c := by
  cases c with
  | some v => rfl
  | none =>
    by_cases hdt : dt.isNumeric = true
    · simp [fillCellConst, hdt]
    · simp [fillCellConst, hdt]

theorem zipFillConst_idem (pol : CleaningPolicy) (cols : List Col)
    (r : List (Option Value)) :
    List.zipWith (fun (c : Col) cell => fillCellConst pol c.dtype cell) cols
      (List.zipWith (fun (c : Col) cell => fillCellConst pol c.dtype cell) cols r) =
    List.zipWith (fun (c : Col) cell => fillCellConst pol c.dtype cell) cols r := by
  induction cols generalizing r with
  | nil => rfl
  | cons c cs ih =>
    cases r with
    | nil => rfl
    | cons x xs =>
      simp only [List.zipWith_cons_cons]
      rw [fillCellConst_idem]
      exact congrArg _ (ih xs)

theorem constFillStep_idem (pol : CleaningPolicy) (df : DataFrame) :
    constFillStep pol (constFillStep pol df) = constFillStep pol df := by
  simp only [constFillStep, List.map_map]
  refine congrArg _ (List.map_congr_left fun r _ => ?_)
  exact zipFillConst_idem pol df.cols r

theorem fillMissingStep_idem (pol : CleaningPolicy) (df : DataFrame) :
    fillMissingStep pol (fillMissingStep pol df) = fillMissingStep pol df := by
  by_cases hf : pol.strategy = "forward"
  · simp only [fillMissingStep, if_pos hf]
    exact ffillStep_idem df
  · by_cases hb : pol.strategy = "backward"
    · simp only [fillMissingStep, if_neg hf, if_pos hb]
      exact bfillStep_idem df
    · simp only [fillMissingStep, if_neg hf, if_neg hb]
      exact constFillStep_idem pol df

theorem cleanDataFrame_eq_fill (pol : CleaningPolicy) (df : DataFrame)
    (h1 : pol.removeDuplicates = false) (h2 : pol.outlierMethod ≠ "iqr") :
    cleanDataFrame pol df = fillMissingStep pol df := by
  have hnot : ¬ (pol.removeDuplicates = true) := by rw [h1]; decide
  rw [cleanDataFrame, if_neg hnot, if_neg h2]

end IdemLemmas

/-! ## Helper lemmas: quantile evaluation on small sorted lists -/

section QuantileLemmas

theorem quantileLin_single (p a : ℚ) : quantileLin [a] p = a := by
  have h0 : qMul p (qSub (qNat [a].length) 1) = 0 := by
    simp only [qMul_eq, qSub_eq, qNat_eq, List.length_singleton]
    norm_num
  simp only [quantileLin, h0]
  have hf : ratFloor 0 = 0 := by decide
  rw [hf]
  simp only [Int.toNat_zero, List.getD_cons_zero, List.getD_cons_succ, List.getD_nil]
  simp only [qAdd_eq, qMul_eq, qSub_eq, qInt_eq]
  push_cast
  ring

theorem quantileLin_pair_q1 (a b : ℚ) :
    quantileLin [a, b] (mkRat 1 4) = a + (1/4) * (b - a) := by
  have h0 : qMul (mkRat 1 4) (qSub (qNat [a, b].length) 1) = mkRat 1 4 := by
    simp only [qMul_eq, qSub_eq, qNat_eq, List.length_cons, List.length_singleton,
      Rat.mkRat_eq_div]
    norm_num
  simp only [quantileLin, h0]
  have hf : ratFloor (mkRat 1 4) = 0 := by decide
  rw [hf]
  simp only [Int.toNat_zero, List.getD_cons_zero, List.getD_cons_succ]
  simp only [qAdd_eq, qMul_eq, qSub_eq, qInt_eq, Rat.mkRat_eq_div]
  push_cast
  ring

theorem quantileLin_pair_q3 (a b : ℚ) :
    quantileLin [a, b] (mkRat 3 4) = a + (3/4) * (b - a) := by
  have h0 : qMul (mkRat 3 4) (qSub (qNat [a, b].length) 1) = mkRat 3 4 := by
    simp only [qMul_eq, qSub_eq, qNat_eq, List.length_cons, List.length_singleton,
      Rat.mkRat_eq_div]
    norm_num
  simp only [quantileLin, h0]
  have hf : ratFloor (mkRat 3 4) = 0 := by decide
  rw [hf]
  simp only [Int.toNat_zero, List.getD_cons_zero, List.getD_cons_succ]
  simp only [qAdd_eq, qMul_eq, qSub_eq, qInt_eq, Rat.mkRat_eq_div]
  push_cast
  ring

theorem quantileLin_three_q1 (a b c : ℚ) :
    quantileLin [a, b, c] (mkRat 1 4) = a + (1/2) * (b - a) := by
  have h0 : qMul (mkRat 1 4) (qSub (qNat [a, b, c].length) 1) = mkRat 1 2 := by
    simp only [qMul_eq, qSub_eq, qNat_eq, List.length_cons, List.length_singleton,
      Rat.mkRat_eq_div]
    norm_num
  simp only [quantileLin, h0]
  have hf : ratFloor (mkRat 1 2) = 0 := by decide
  rw [hf]
  simp only [Int.toNat_zero, List.getD_cons_zero, List.getD_cons_succ]
  simp only [qAdd_eq, qMul_eq, qSub_eq, qInt_eq, Rat.mkRat_eq_div]
  push_cast
  ring

theorem quantileLin_three_q3 (a b c : ℚ) :
    quantileLin [a, b, c] (mkRat 3 4) = b + (1/2) * (c - b) := by
  have h0 : qMul (mkRat 3 4) (qSub (qNat [a, b, c].length) 1) = mkRat 3 2 := by
    simp only [qMul_eq, qSub_eq, qNat_eq, List.length_cons, List.length_singleton,
      Rat.mkRat_eq_div]
    norm_num
  simp only [quantileLin, h0]
  have hf : ratFloor (mkRat 3 2) = 1 := by decide
  rw [hf]
  simp only [Int.toNat_one, List.getD_cons_zero, List.getD_cons_succ]
  simp only [qAdd_eq, qMul_eq, qSub_eq, qInt_eq, Rat.mkRat_eq_div]
  push_cast
  ring

theorem zipWith_set_cellAt (i : ℕ) (rows : List (List (Option Value))) :
    List.zipWith (fun r c => r.set i c) rows (rows.map (fun r => cellAt r i)) = rows := by
  induction rows with
  | nil => rfl
  | cons r rs ih =>
    simp only [List.map_cons, List.zipWith_cons_cons]
    rw [ih]
    simp only [cellAt]
    rw [set_getD_self]

theorem setColCells_getCol_self (df : DataFrame) (i : ℕ) :
    setColCells df i (getColCells df i) = df := by
  obtain ⟨cols, rows⟩ := df
  simp only [setColCells, getColCells]
  rw [zipWith_set_cellAt]

end QuantileLemmas

/-! ## Helper lemmas: `_validate_data_types` preservation -/

section ValidateLemmas

theorem getColCells_getD (d : DataFrame) (i j : ℕ) (hj : j < d.rows.length) :
    (getColCells d i).getD j none = cellAt (d.rows.getD j []) i := by
  rw [getColCells, getD_map_pos _ _ j none [] hj]

theorem idxOfName_set_name (cols : List Col) (k : ℕ) (dt : DType) (n : String) :
    idxOfName (cols.set k ⟨(cols.getD k ⟨"", .obj⟩).name, dt⟩) n = idxOfName cols n := by
  induction cols generalizing k with
  | nil => simp
  | cons c cs ih =>
    cases k with
    | zero => simp [idxOfName]
    | succ k =>
      simp only [List.getD_cons_succ, List.set_cons_succ, idxOfName]
      rw [ih k]

theorem colIdx_updateColAt (d : DataFrame) (k : ℕ) (cells : List (Option Value))
    (dt : DType) (n : String) :
    colIdx (updateColAt d k cells dt) n = colIdx d n := by
  simp only [colIdx, updateColAt]
  exact idxOfName_set_name d.cols k dt n

theorem updateColAt_rows_length (d : DataFrame) (k : ℕ) (cells : List (Option Value))
    (dt : DType) (h : cells.length = d.rows.length) :
    (updateColAt d k cells dt).rows.length = d.rows.length := by
  simp [updateColAt, setColCells, h]

theorem updateColAt_row (d : DataFrame) (k : ℕ) (cells : List (Option Value))
    (dt : DType) (j : ℕ) (h : cells.length = d.rows.length) (hj : j < d.rows.length) :
    (updateColAt d k cells dt).rows.getD j [] =
      (d.rows.getD j []).set k (cells.getD j none) := by
  simp only [updateColAt, setColCells]
  exact getD_zipWith_pos (fun (r : List (Option Value)) c => r.set k c) d.rows cells j
    [] [] none hj (by omega)

theorem updateColAt_cell_ne (d : DataFrame) (k : ℕ) (cells : List (Option Value))
    (dt : DType) (h : cells.length = d.rows.length) (i j : ℕ) (hik : i ≠ k) :
    cellAt ((updateColAt d k cells dt).rows.getD j []) i =
      cellAt (d.rows.getD j []) i := by
  by_cases hj : j < d.rows.length
  · rw [updateColAt_row d k cells dt j h hj, cellAt, getD_set_ne _ _ _ _ _ hik, cellAt]
  · rw [getD_of_length_le _ _ _ (by rw [updateColAt_rows_length d k cells dt h]; omega),
      getD_of_length_le _ _ _ (by omega)]

theorem validateColStep_colIdx (d : DataFrame) (p : String × String) (n : String) :
    colIdx (validateColStep d p) n = colIdx d n := by
  cases hcol : colIdx d p.1 with
  | none => simp only [validateColStep, hcol]
  | some k =>
    simp only [validateColStep, hcol]
    split_ifs <;> first | rfl | apply colIdx_updateColAt

theorem validateColStep_rows_length (d : DataFrame) (p : String × String) :
    (validateColStep d p).rows.length = d.rows.length := by
  cases hcol : colIdx d p.1 with
  | none => simp only [validateColStep, hcol]
  | some k =>
    simp only [validateColStep, hcol]
    split_ifs <;> first
      | rfl
      | exact updateColAt_rows_length _ _ _ _ (by simp [getColCells])

theorem validateColStep_cell_str (d : DataFrame) (p : String × String) (i j : ℕ)
    (s : String) (hty : colIdx d p.1 = some i → p.2 = "str")
    (hcell : cellAt (d.rows.getD j []) i = some (.str s)) :
    cellAt ((validateColStep d p).rows.getD j []) i = some (.str s) := by
  cases hcol : colIdx d p.1 with
  | none => simp only [validateColStep, hcol]; exact hcell
  | some k =>
    by_cases hik : i = k
    · subst hik
      have hstr := hty hcol
      have hj : j < d.rows.length := by
        by_contra hle
        rw [getD_of_length_le _ _ _ (le_of_not_lt hle)] at hcell
        simp [cellAt] at hcell
      have hlen : ((getColCells d i).map astypeStrCell).length = d.rows.length := by
        simp [getColCells]
      have hrl : i < (d.rows.getD j []).length :=
        cellAt_pos_of_ne_none _ _ (by rw [hcell]; simp)
      simp only [validateColStep, hcol, hstr]
      split_ifs <;> first
        | (exfalso; simp_all; done)
        | (rw [updateColAt_row d i _ _ j hlen hj, cellAt, getD_set_eq_of_lt _ _ _ _ hrl,
            getD_map_pos astypeStrCell _ j none none (by simp [getColCells]; exact hj),
            getColCells_getD d i j hj, hcell]; rfl)
    · simp only [validateColStep, hcol]
      split_ifs <;> first
        | exact hcell
        | (rw [updateColAt_cell_ne _ _ _ _ (by simp [getColCells]) i j hik]; exact hcell)

theorem validateColStep_cell_num (d : DataFrame) (p : String × String) (i j : ℕ)
    (q : ℚ) (hty : colIdx d p.1 = some i → p.2 = "int" ∨ p.2 = "float")
    (hcell : cellAt (d.rows.getD j []) i = some (.num q)) :
    cellAt ((validateColStep d p).rows.getD j []) i = some (.num q) := by
  cases hcol : colIdx d p.1 with
  | none => simp only [validateColStep, hcol]; exact hcell
  | some k =>
    by_cases hik : i = k
    · subst hik
      have hj : j < d.rows.length := by
        by_contra hle
        rw [getD_of_length_le _ _ _ (le_of_not_lt hle)] at hcell
        simp [cellAt] at hcell
      have hlen : ((getColCells d i).map toNumericCell).length = d.rows.length := by
        simp [getColCells]
      have hrl : i < (d.rows.getD j []).length :=
        cellAt_pos_of_ne_none _ _ (by rw [hcell]; simp)
      have hnumcell :
          ((getColCells d i).map toNumericCell).getD j none = some (.num q) := by
        rw [getD_map_pos toNumericCell _ j none none (by simp [getColCells]; exact hj)]
        rw [getColCells_getD d i j hj, hcell]
        rfl
      rcases hty hcol with hint | hflt
      · simp only [validateColStep, hcol, hint]
        split_ifs <;> first
          | (exfalso; simp_all; done)
          | exact hcell
          | (rw [updateColAt_row d i _ _ j hlen hj, cellAt,
              getD_set_eq_of_lt _ _ _ _ hrl, hnumcell])
      · simp only [validateColStep, hcol, hflt]
        split_ifs <;> first
          | (exfalso; simp_all; done)
          | exact hcell
          | (rw [updateColAt_row d i _ _ j hlen hj, cellAt,
              getD_set_eq_of_lt _ _ _ _ hrl, hnumcell])
    · simp only [validateColStep, hcol]
      split_ifs <;> first
        | exact hcell
        | (rw [updateColAt_cell_ne _ _ _ _ (by simp [getColCells]) i j hik]; exact hcell)

theorem validateDataTypes_colIdx (types : List (String × String)) (df : DataFrame)
    (n : String) : colIdx (validateDataTypes types df) n = colIdx df n := by
  induction types generalizing df with
  | nil => rfl
  | cons p ps ih =>
    rw [validateDataTypes, List.foldl_cons]
    rw [show ps.foldl validateColStep (validateColStep df p) =
      validateDataTypes ps (validateColStep df p) from rfl]
    rw [ih (validateColStep df p), validateColStep_colIdx]

theorem validateDataTypes_rows_length (types : List (String × String)) (df : DataFrame) :
    (validateDataTypes types df).rows.length = df.rows.length := by
  induction types generalizing df with
  | nil => rfl
  | cons p ps ih =>
    rw [validateDataTypes, List.foldl_cons]
    rw [show ps.foldl validateColStep (validateColStep df p) =
      validateDataTypes ps (validateColStep df p) from rfl]
    rw [ih (validateColStep df p), validateColStep_rows_length]

theorem validateDataTypes_cell_str (types : List (String × String)) (df : DataFrame)
    (i : ℕ) (h : ∀ p ∈ types, colIdx df p.1 = some i → p.2 = "str") :
    ∀ j s, cellAt (df.rows.getD j []) i = some (.str s) →
      cellAt ((validateDataTypes types df).rows.getD j []) i = some (.str s) := by
  induction types generalizing df with
  | nil => intro j s hc; exact hc
  | cons p ps ih =>
    intro j s hc
    rw [validateDataTypes, List.foldl_cons]
    rw [show ps.foldl validateColStep (validateColStep df p) =
      validateDataTypes ps (validateColStep df p) from rfl]
    refine ih (validateColStep df p) (fun q hq => ?_) j s
      (validateColStep_cell_str df p i j s (h p (List.mem_cons_self _ _)) hc)
    rw [validateColStep_colIdx]
    exact h q (List.mem_cons_of_mem _ hq)

theorem validateDataTypes_cell_num (types : List (String × String)) (df : DataFrame)
    (i : ℕ) (h : ∀ p ∈ types, colIdx df p.1 = some i → p.2 = "int" ∨ p.2 = "float") :
    ∀ j q, cellAt (df.rows.getD j []) i = some (.num q) →
      cellAt ((validateDataTypes types df).rows.getD j []) i = some (.num q) := by
  induction types generalizing df with
  | nil => intro j q hc; exact hc
  | cons p ps ih =>
    intro j q hc
    rw [validateDataTypes, List.foldl_cons]
    rw [show ps.foldl validateColStep (validateColStep df p) =
      validateDataTypes ps (validateColStep df p) from rfl]
    refine ih (validateColStep df p) (fun p2 hp2 => ?_) j q
      (validateColStep_cell_num df p i j q (h p (List.mem_cons_self _ _)) hc)
    rw [validateColStep_colIdx]
    exact h p2 (List.mem_cons_of_mem _ hp2)

end ValidateLemmas

/-! ## Claim C2: small numeric columns in the IQR step -/

/-- C2 counterexample: the IQR step has no "fewer than 4 non-null values"
guard.  With threshold 0.5, the 3-value column `[0, 0, 100]` gets clamped:
Q1 = 0, Q3 = 50, bounds `[-25, 75]`, and 100 is lowered to 75. -/
theorem c2_counterexample :
    ((getColCells c2df 0).filterMap cellToNum).length = 3 ∧
    (∀ c ∈ getColCells c2df 0, isNumOrNone c = true) ∧
    handleOutliersIQR (mkRat 1 2) c2df ≠ c2df ∧
    handleOutliersIQR (mkRat 1 2) c2df =
      ⟨[⟨"x", .float⟩], [[some (.num 0)], [some (.num 0)], [some (.num 75)]]⟩ := by
  decide

/-- C2 (amended): quartiles are computed for every numeric column regardless
of its size, but whenever the threshold is at least 1 — the default is 1.5 —
a numeric column with fewer than 4 non-null values always lies inside the IQR
bounds, so its values are left completely unchanged (and a frame all of whose
numeric columns are that small passes through the outlier step untouched).
For thresholds below 1 such a column can be clamped. -/
theorem c2_small_columns_unchanged (t : ℚ) (ht : 1 ≤ t) :
    (∀ col : List (Option Value),
      (∀ c ∈ col, isNumOrNone c = true) →
      (col.filterMap cellToNum).length ≤ 3 →
      clampColumnIQR t col = col) ∧
    (∀ df : DataFrame,
      (∀ i ∈ numColIdxs df,
        (∀ c ∈ getColCells df i, isNumOrNone c = true) ∧
        ((getColCells df i).filterMap cellToNum).length ≤ 3) →
      handleOutliersIQR t df = df) := by
  have hcol : ∀ col : List (Option Value),
      (∀ c ∈ col, isNumOrNone c = true) →
      (col.filterMap cellToNum).length ≤ 3 →
      clampColumnIQR t col = col := by
    intro col _ hlen
    rw [clampColumnIQR]
    by_cases hv : col.filterMap cellToNum = []
    · rw [if_pos hv]
    · rw [if_neg hv]
      dsimp only
      split
      · rfl
      · rename_i hcount
        exfalso
        apply hcount
        rw [List.countP_eq_zero]
        intro v hvmem
        simp only [decide_eq_true_eq]
        have hperm : (List.insertionSort (· ≤ ·) (col.filterMap cellToNum)).Perm
            (col.filterMap cellToNum) := List.perm_insertionSort _ _
        have hsort : List.Sorted (· ≤ ·)
            (List.insertionSort (· ≤ ·) (col.filterMap cellToNum)) :=
          List.sorted_insertionSort _ _
        have hlen_s : (List.insertionSort (· ≤ ·) (col.filterMap cellToNum)).length ≤ 3 := by
          rw [hperm.length_eq]; exact hlen
        have hmem : v ∈ List.insertionSort (· ≤ ·) (col.filterMap cellToNum) :=
          hperm.mem_iff.mpr hvmem
        rcases hs : List.insertionSort (· ≤ ·) (col.filterMap cellToNum) with
          _ | ⟨a, _ | ⟨b, _ | ⟨c, _ | ⟨d, tl⟩⟩⟩⟩ <;> rw [hs] at hsort hlen_s hmem
        · simp at hmem
        · simp only [List.mem_singleton] at hmem
          subst hmem
          simp only [quantileLin_single, qSub_eq, qMul_eq, qAdd_eq]
          push_neg
          constructor <;> nlinarith
        · rw [List.sorted_cons] at hsort
          have hab : a ≤ b := hsort.1 b (List.mem_singleton.mpr rfl)
          simp only [quantileLin_pair_q1, quantileLin_pair_q3, qSub_eq, qMul_eq, qAdd_eq]
          push_neg
          have hX : 0 ≤ (t - 1) * (b - a) :=
            mul_nonneg (by linarith) (by linarith)
          simp only [List.mem_cons, List.mem_singleton] at hmem
          rcases hmem with rfl | rfl | hfalse
          · constructor <;> nlinarith
          · constructor <;> nlinarith
          · simp at hfalse
        · rw [List.sorted_cons] at hsort
          have hab : a ≤ b := hsort.1 b (by simp)
          have hac : a ≤ c := hsort.1 c (by simp)
          rw [List.sorted_cons] at hsort
          have hbc : b ≤ c := hsort.2.1 c (by simp)
          simp only [quantileLin_three_q1, quantileLin_three_q3, qSub_eq, qMul_eq, qAdd_eq]
          push_neg
          have hX : 0 ≤ (t - 1) * (c - a) :=
            mul_nonneg (by linarith) (by linarith)
          simp only [List.mem_cons, List.mem_singleton] at hmem
          rcases hmem with rfl | rfl | rfl | hfalse
          · constructor <;> nlinarith
          · constructor <;> nlinarith
          · constructor <;> nlinarith
          · simp at hfalse
        · simp only [List.length_cons] at hlen_s
          omega
  refine ⟨hcol, fun df hall => ?_⟩
  have hid : ∀ i ∈ numColIdxs df, clampFrameCol t df i = df := by
    intro i hi
    rw [clampFrameCol, hcol (getColCells df i) (hall i hi).1 (hall i hi).2]
    exact setColCells_getCol_self df i
  have hgen : ∀ l : List ℕ, (∀ i ∈ l, clampFrameCol t df i = df) →
      l.foldl (clampFrameCol t) df = df := by
    intro l
    induction l with
    | nil => intro _; rfl
    | cons k ks ih =>
      intro h
      rw [List.foldl_cons, h k (List.mem_cons_self _ _),
        ih (fun i hi => h i (List.mem_cons_of_mem _ hi))]
  exact hgen (numColIdxs df) hid

/-- Witness for `c2_small_columns_unchanged` at the default threshold 1.5 on a
3-value column and a frame whose only numeric column has 3 non-null values. -/
theorem c2_small_columns_unchanged_witness :
    clampColumnIQR (mkRat 3 2) c2wcol = c2wcol ∧
    handleOutliersIQR (mkRat 3 2) c2wdf = c2wdf :=
  ⟨(c2_small_columns_unchanged (mkRat 3 2) (by decide)).1 c2wcol (by decide) (by decide),
   (c2_small_columns_unchanged (mkRat 3 2) (by decide)).2 c2wdf (by decide)⟩

/-! ## Claim C3: order of cleaning and business rules -/

/-- C3 counterexample: on a sales record `{cantidad: 2, precio: 10,
total: null}` with a constant-fill policy, the transform leaves `total = 0`
(the null passes the reconciliation mask untouched and is only filled
afterwards), while the spec's clean-first composition would fill `total = 0`
first and then reconcile it to `20`.  The two orders produce different
frames, so cleaning does not precede the business rules. -/
theorem c3_counterexample :
    transformVentas c3pol c3df ≠ transformVentasSpecOrder c3pol c3df := by
  decide

/-- C3 (amended): every kind-specific transform applies the kind's business
rules first, then runs the Cleaning Engine, then re-runs type coercion —
cleaning follows the business rules instead of preceding them, and the two
orders are observably different. -/
theorem c3_rules_before_cleaning :
    (∀ (pol : CleaningPolicy) (df : DataFrame),
      transformVentas pol df =
        validateDataTypes ventasTypes (cleanDataFrame pol (ventasRules df))) ∧
    (∀ (pol : CleaningPolicy) (df : DataFrame),
      transformProductos pol df =
        validateDataTypes productosTypes (cleanDataFrame pol (productosRules df))) ∧
    (∀ (pol : CleaningPolicy) (df : DataFrame),
      transformClientes pol df =
        validateDataTypes clientesTypes (cleanDataFrame pol (clientesRules df))) ∧
    (∃ (pol : CleaningPolicy) (df : DataFrame),
      transformVentas pol df ≠ transformVentasSpecOrder pol df) :=
  ⟨fun _ _ => rfl, fun _ _ => rfl, fun _ _ => rfl,
   ⟨c3pol, c3df, by decide⟩⟩

/-! ## Claim C9: the customer email filter -/

/-- The customer business rules on a frame with the standard layout, fully
reduced: trim/title `nombre` (position 1), normalize `email` (position 2),
filter on `'@' in email`, trim/title `ciudad` (position 3), parse
`fecha_registro` (position 5). -/
theorem clientesRules_explicit (rows : List (List (Option Value))) :
    clientesRules ⟨clientesCols, rows⟩ =
      ⟨[⟨"id", .int⟩, ⟨"nombre", .obj⟩, ⟨"email", .obj⟩, ⟨"ciudad", .obj⟩,
        ⟨"telefono", .obj⟩, ⟨"fecha_registro", .datetime⟩],
       ((((((rows.map (fun r => r.set 1 (strCellMap stripStr (cellAt r 1)))).map
           (fun r => r.set 1 (strCellMap titleStr (cellAt r 1)))).map
           (fun r => r.set 2 (strCellMap stripStr (strCellMap lowerStr (cellAt r 2))))).filter
           (fun r =>
             match cellAt r 2 with
             | some (.str s) => strContainsChar s '@'
             | _ => false)).map
           (fun r => r.set 3 (strCellMap stripStr (cellAt r 3)))).map
           (fun r => r.set 3 (strCellMap titleStr (cellAt r 3)))).map
           (fun r => r.set 5 (toDatetimeCell (cellAt r 5)))⟩ := rfl

/-- C9: on any customer dataset with the standard layout, the transformed
output contains no record with a null email and no record whose email lacks
`'@'`: every surviving record's email is a string containing `'@'`.  (Null
emails are dropped by `str.contains('@', na=False)` exactly like `'@'`-less
ones; the later cleaning and type-validation stages never null an email or
remove its `'@'`.) -/
theorem c9_email_filter (pol : CleaningPolicy) (df : DataFrame)
    (hcols : df.cols = clientesCols)
    (hrect : ∀ r ∈ df.rows, r.length = 6) :
    ∀ r2 ∈ (transformClientes pol df).rows,
      ∃ s, cellAt r2 2 = some (.str s) ∧ strContainsChar s '@' = true := by
  obtain ⟨cols, rows⟩ := df
  replace hcols : cols = clientesCols := hcols
  subst hcols
  replace hrect : ∀ r ∈ rows, r.length = 6 := hrect
  have hRexp := clientesRules_explicit rows
  have hRP : ∀ r ∈ (clientesRules ⟨clientesCols, rows⟩).rows,
      (∃ s, cellAt r 2 = some (.str s) ∧ strContainsChar s '@' = true) ∧
        r.length = 6 := by
    intro r hr
    rw [hRexp] at hr
    obtain ⟨r6, hr6, rfl⟩ := List.mem_map.mp hr
    obtain ⟨r5, hr5, rfl⟩ := List.mem_map.mp hr6
    obtain ⟨r4, hr4, rfl⟩ := List.mem_map.mp hr5
    obtain ⟨hr4m, hpred⟩ := List.mem_filter.mp hr4
    have hcell : ∀ (x : List (Option Value)) a b c,
        cellAt (((x.set 3 a).set 3 b).set 5 c) 2 = cellAt x 2 := by
      intro x a b c
      simp only [cellAt]
      rw [getD_set_ne _ _ _ _ _ (by omega), getD_set_ne _ _ _ _ _ (by omega),
        getD_set_ne _ _ _ _ _ (by omega)]
    constructor
    · rcases hc : cellAt r4 2 with _ | v
      · rw [hc] at hpred; simp at hpred
      · cases v with
        | str s =>
          refine ⟨s, ?_, ?_⟩
          · rw [hcell, hc]
          · rw [hc] at hpred; simpa using hpred
        | num q => rw [hc] at hpred; simp at hpred
        | boolean b => rw [hc] at hpred; simp at hpred
        | date d => rw [hc] at hpred; simp at hpred
    · obtain ⟨r3, hr3, rfl⟩ := List.mem_map.mp hr4m
      obtain ⟨r2m, hr2m, rfl⟩ := List.mem_map.mp hr3
      obtain ⟨r1, hr1, rfl⟩ := List.mem_map.mp hr2m
      simp only [List.length_set]
      exact hrect r1 hr1
  have hRcols_len : (clientesRules ⟨clientesCols, rows⟩).cols.length = 6 := rfl
  have hRrect : ∀ r ∈ (clientesRules ⟨clientesCols, rows⟩).rows,
      r.length = (clientesRules ⟨clientesCols, rows⟩).cols.length := by
    intro r hr
    rw [hRcols_len]
    exact (hRP r hr).2
  intro r2 h2
  rw [transformClientes] at h2
  obtain ⟨j, hj, hje⟩ := mem_getD_of_mem _ r2 [] h2
  rw [validateDataTypes_rows_length] at hj
  have hCmem : (cleanDataFrame pol (clientesRules ⟨clientesCols, rows⟩)).rows.getD j [] ∈
      (cleanDataFrame pol (clientesRules ⟨clientesCols, rows⟩)).rows :=
    getD_mem_of_lt _ j [] hj
  obtain ⟨r0, hr0, hpres⟩ :=
    cleanDataFrame_cell_pres pol (clientesRules ⟨clientesCols, rows⟩) hRrect _ hCmem
  obtain ⟨⟨s, hcell2, hcontains⟩, _⟩ := hRP r0 hr0
  have hdt : ((clientesRules ⟨clientesCols, rows⟩).cols.getD 2
      ⟨"", .obj⟩).dtype.isNumeric = false := rfl
  have hpres2 : cellAt
      ((cleanDataFrame pol (clientesRules ⟨clientesCols, rows⟩)).rows.getD j []) 2 =
        some (.str s) := by
    rw [hpres 2 (Or.inr hdt) (by rw [hcell2]; simp), hcell2]
  have hty : ∀ p ∈ clientesTypes,
      colIdx (cleanDataFrame pol (clientesRules ⟨clientesCols, rows⟩)) p.1 = some 2 →
        p.2 = "str" := by
    intro p hp hcolp
    rw [show colIdx (cleanDataFrame pol (clientesRules ⟨clientesCols, rows⟩)) p.1 =
        colIdx (clientesRules ⟨clientesCols, rows⟩) p.1 by
      rw [colIdx, colIdx, cleanDataFrame_cols]] at hcolp
    fin_cases hp
    · exact absurd hcolp (by
        rw [show colIdx (clientesRules ⟨clientesCols, rows⟩) ("id", "int").1 =
          some 0 from rfl]
        simp)
    · exact absurd hcolp (by
        rw [show colIdx (clientesRules ⟨clientesCols, rows⟩) ("nombre", "str").1 =
          some 1 from rfl]
        simp)
    · rfl
    · exact absurd hcolp (by
        rw [show colIdx (clientesRules ⟨clientesCols, rows⟩) ("ciudad", "str").1 =
          some 3 from rfl]
        simp)
  have hfinal := validateDataTypes_cell_str clientesTypes
    (cleanDataFrame pol (clientesRules ⟨clientesCols, rows⟩)) 2 hty j s hpres2
  rw [hje] at hfinal
  exact ⟨s, hfinal, hcontains⟩

/-- Witness for `c9_email_filter`: a concrete customer frame with one valid,
one null, and one `'@'`-less email, under the default policy with IQR
clamping on. -/
theorem c9_email_filter_witness :
    ∃ s, cellAt ((transformClientes c9wpol c9wdf).rows.getD 0 []) 2 = some (.str s) ∧
      strContainsChar s '@' = true :=
  c9_email_filter c9wpol c9wdf rfl (by decide)
    ((transformClientes c9wpol c9wdf).rows.getD 0 []) (by decide)

/-! ## Claim C4: the total-reconciliation tolerance -/

section VentasLemmas

theorem exists_of_isNum (c : Option Value) (h : isNum c = true) :
    ∃ q, c = some (.num q) := by
  cases c with
  | none => simp [isNum] at h
  | some v =>
    cases v with
    | num q => exact ⟨q, rfl⟩
    | str s => simp [isNum] at h
    | boolean b => simp [isNum] at h
    | date d => simp [isNum] at h

theorem length7 (r : List (Option Value)) (h : r.length = 7) :
    ∃ a0 a1 a2 a3 a4 a5 a6, r = [a0, a1, a2, a3, a4, a5, a6] := by
  rcases r with _ | ⟨a0, r⟩
  · simp at h
  rcases r with _ | ⟨a1, r⟩
  · simp at h
  rcases r with _ | ⟨a2, r⟩
  · simp at h
  rcases r with _ | ⟨a3, r⟩
  · simp at h
  rcases r with _ | ⟨a4, r⟩
  · simp at h
  rcases r with _ | ⟨a5, r⟩
  · simp at h
  rcases r with _ | ⟨a6, r⟩
  · simp at h
  rcases r with _ | ⟨a7, r⟩
  · exact ⟨a0, a1, a2, a3, a4, a5, a6, rfl⟩
  · simp only [List.length_cons] at h
    omega

set_option maxHeartbeats 1600000 in
/-- The sales business rules on the standard with-total layout, fully
reduced: parse `fecha` (position 1), append `mes`/`año`/`dia_semana`, append
the two temporary reconciliation columns, overwrite `total` (position 6)
where the difference mask holds, and drop the temporaries. -/
theorem ventasRules_explicit (rows : List (List (Option Value))) :
    ventasRules ⟨ventasColsT, rows⟩ =
      ⟨[⟨"id", .int⟩, ⟨"fecha", .datetime⟩, ⟨"producto_id", .int⟩, ⟨"cliente_id", .int⟩,
        ⟨"cantidad", .int⟩, ⟨"precio", .float⟩, ⟨"total", .float⟩, ⟨"mes", .int⟩,
        ⟨"año", .int⟩, ⟨"dia_semana", .obj⟩],
       ((((((((rows.map (fun r => r.set 1 (toDatetimeCell (cellAt r 1)))).map
           (fun r => r ++ [dtMonthCell (cellAt r 1)])).map
           (fun r => r ++ [dtYearCell (cellAt r 1)])).map
           (fun r => r ++ [dtDayNameCell (cellAt r 1)])).map
           (fun r => r ++ [cellMul (cellAt r 4) (cellAt r 5)])).map
           (fun r => r ++ [cellAbs (cellSub (cellAt r 6) (cellAt r 10))])).map
           (fun r => r.set 6
             (if cellGtConst (cellAt r 11) (mkRat 1 100) = true then cellAt r 10
              else cellAt r 6))).map
           (fun r => r.eraseIdx 10)).map
           (fun r => r.eraseIdx 10)⟩ := rfl

theorem ventasRules_getD (rows : List (List (Option Value))) (j : ℕ)
    (hj : j < rows.length) (a0 a1 a2 a3 : Option Value) (c p t : ℚ)
    (hrow : rows.getD j [] =
      [a0, a1, a2, a3, some (.num c), some (.num p), some (.num t)]) :
    (ventasRules ⟨ventasColsT, rows⟩).rows.getD j [] =
      [a0, toDatetimeCell a1, a2, a3, some (.num c), some (.num p),
       (if (mkRat 1 100 : ℚ) < qAbs (qSub t (qMul c p)) then some (.num (qMul c p))
        else some (.num t)),
       dtMonthCell (toDatetimeCell a1), dtYearCell (toDatetimeCell a1),
       dtDayNameCell (toDatetimeCell a1)] := by
  rw [ventasRules_explicit]
  rw [getD_map_pos _ _ j [] [] (by simp [hj])]
  rw [getD_map_pos _ _ j [] [] (by simp [hj])]
  rw [getD_map_pos _ _ j [] [] (by simp [hj])]
  rw [getD_map_pos _ _ j [] [] (by simp [hj])]
  rw [getD_map_pos _ _ j [] [] (by simp [hj])]
  rw [getD_map_pos _ _ j [] [] (by simp [hj])]
  rw [getD_map_pos _ _ j [] [] (by simp [hj])]
  rw [getD_map_pos _ _ j [] [] (by simp [hj])]
  rw [getD_map_pos _ _ j [] [] (by simp [hj])]
  rw [hrow]
  simp only [cellAt, List.getD_cons_zero, List.getD_cons_succ, List.set,
    List.cons_append, List.nil_append, cellMul, cellSub, cellAbs, cellGtConst,
    List.eraseIdx, decide_eq_true_eq]

end VentasLemmas

/-- C4 counterexample: the sales record `{cantidad: 2, precio: 10,
total: null}` under a constant-fill policy: the null total survives
reconciliation (NaN fails the `> 0.01` mask) and is then filled with 0, so
the transformed output contains a record with `|0 - 2*10| = 20 > 0.01`. -/
theorem c4_counterexample :
    (transformVentas c4pol c4df).rows.map (fun r => cellAt r 6) = [some (.num 0)] ∧
    (transformVentas c4pol c4df).rows.map (fun r => cellAt r 4) = [some (.num 2)] ∧
    (transformVentas c4pol c4df).rows.map (fun r => cellAt r 5) = [some (.num 10)] ∧
    ventasReconciled (transformVentas c4pol c4df) = false := by
  decide

/-- C4 (amended): for sales datasets whose `cantidad`, `precio` and `total`
cells are all (non-null) numbers, and policies without IQR clamping, the
reconciliation invariant does hold after the full transform: every output
record satisfies `|total - cantidad*precio| <= 0.01`.  Moreover the
reconciliation step itself overwrites a supplied total with the recomputed
product exactly when the absolute difference exceeds 0.01, and keeps it
unchanged otherwise.  (With null totals or IQR clamping the invariant can be
broken by the later cleaning stage.) -/
theorem c4_reconciliation_tolerance (pol : CleaningPolicy) (df : DataFrame)
    (hcols : df.cols = ventasColsT)
    (hrect : ∀ r ∈ df.rows, r.length = 7)
    (hnum : ∀ r ∈ df.rows, isNum (cellAt r 4) = true ∧ isNum (cellAt r 5) = true ∧
      isNum (cellAt r 6) = true)
    (hiqr : pol.outlierMethod ≠ "iqr") :
    (∀ r2 ∈ (transformVentas pol df).rows, ∃ c p t : ℚ,
      cellAt r2 4 = some (.num c) ∧ cellAt r2 5 = some (.num p) ∧
      cellAt r2 6 = some (.num t) ∧ |t - c * p| ≤ 1/100) ∧
    (∀ j, j < df.rows.length → ∀ c p t : ℚ,
      cellAt (df.rows.getD j []) 4 = some (.num c) →
      cellAt (df.rows.getD j []) 5 = some (.num p) →
      cellAt (df.rows.getD j []) 6 = some (.num t) →
      cellAt ((ventasRules df).rows.getD j []) 6 =
        some (.num (if 1/100 < |t - c * p| then c * p else t))) := by
  obtain ⟨cols, rows⟩ := df
  replace hcols : cols = ventasColsT := hcols
  subst hcols
  replace hrect : ∀ r ∈ rows, r.length = 7 := hrect
  replace hnum : ∀ r ∈ rows, isNum (cellAt r 4) = true ∧ isNum (cellAt r 5) = true ∧
    isNum (cellAt r 6) = true := hnum
  have hbridge : ∀ c p t : ℚ,
      ((mkRat 1 100 : ℚ) < qAbs (qSub t (qMul c p))) ↔ ((1:ℚ)/100 < |t - c * p|) := by
    intro c p t
    rw [qAbs_eq, qSub_eq, qMul_eq, Rat.mkRat_eq_div]
    norm_num
  -- the per-row shape of the rules output
  have hrowfact : ∀ j, j < rows.length → ∃ c p t : ℚ,
      cellAt ((ventasRules ⟨ventasColsT, rows⟩).rows.getD j []) 4 = some (.num c) ∧
      cellAt ((ventasRules ⟨ventasColsT, rows⟩).rows.getD j []) 5 = some (.num p) ∧
      cellAt ((ventasRules ⟨ventasColsT, rows⟩).rows.getD j []) 6 =
        some (.num (if (1:ℚ)/100 < |t - c * p| then c * p else t)) := by
    intro j hj
    have hmem0 : rows.getD j [] ∈ rows := getD_mem_of_lt _ j [] hj
    obtain ⟨a0, a1, a2, a3, a4, a5, a6, he⟩ := length7 _ (hrect _ hmem0)
    obtain ⟨hn4, hn5, hn6⟩ := hnum _ hmem0
    rw [he] at hn4 hn5 hn6
    simp only [cellAt, List.getD_cons_succ, List.getD_cons_zero] at hn4 hn5 hn6
    obtain ⟨c, rfl⟩ := exists_of_isNum a4 hn4
    obtain ⟨p, rfl⟩ := exists_of_isNum a5 hn5
    obtain ⟨t, rfl⟩ := exists_of_isNum a6 hn6
    have hgd := ventasRules_getD rows j hj a0 a1 a2 a3 c p t he
    refine ⟨c, p, t, ?_, ?_, ?_⟩ <;> rw [hgd] <;>
      simp only [cellAt, List.getD_cons_succ, List.getD_cons_zero]
    rw [apply_ite (fun x : ℚ => some (Value.num x)), if_congr (hbridge c p t) rfl rfl,
      qMul_eq]
  have hRlen : (ventasRules ⟨ventasColsT, rows⟩).rows.length = rows.length := by
    rw [ventasRules_explicit]
    simp
  have hRrect : ∀ r ∈ (ventasRules ⟨ventasColsT, rows⟩).rows,
      r.length = (ventasRules ⟨ventasColsT, rows⟩).cols.length := by
    intro r hr
    rw [ventasRules_explicit] at hr ⊢
    obtain ⟨r8, h8, rfl⟩ := List.mem_map.mp hr
    obtain ⟨r7, h7, rfl⟩ := List.mem_map.mp h8
    obtain ⟨r6, h6, rfl⟩ := List.mem_map.mp h7
    obtain ⟨r5, h5, rfl⟩ := List.mem_map.mp h6
    obtain ⟨r4, h4, rfl⟩ := List.mem_map.mp h5
    obtain ⟨r3, h3, rfl⟩ := List.mem_map.mp h4
    obtain ⟨r2x, h2x, rfl⟩ := List.mem_map.mp h3
    obtain ⟨r1, h1, rfl⟩ := List.mem_map.mp h2x
    obtain ⟨r0, h0, rfl⟩ := List.mem_map.mp h1
    have h7len : r0.length = 7 := hrect r0 h0
    simp [List.length_eraseIdx, List.length_set, h7len]
  constructor
  · intro r2 h2
    rw [transformVentas] at h2
    obtain ⟨j, hj, hje⟩ := mem_getD_of_mem _ r2 [] h2
    rw [validateDataTypes_rows_length] at hj
    have hCmem : (cleanDataFrame pol (ventasRules ⟨ventasColsT, rows⟩)).rows.getD j [] ∈
        (cleanDataFrame pol (ventasRules ⟨ventasColsT, rows⟩)).rows :=
      getD_mem_of_lt _ j [] hj
    obtain ⟨r0, hr0, hpres⟩ :=
      cleanDataFrame_cell_pres pol (ventasRules ⟨ventasColsT, rows⟩) hRrect _ hCmem
    obtain ⟨j0, hj0, hj0e⟩ := mem_getD_of_mem _ r0 [] hr0
    rw [hRlen] at hj0
    obtain ⟨c, p, t2, hc4, hc5, hc6⟩ := hrowfact j0 hj0
    rw [hj0e] at hc4 hc5 hc6
    have hp4 : cellAt ((cleanDataFrame pol (ventasRules ⟨ventasColsT, rows⟩)).rows.getD j []) 4 =
        some (.num c) := by
      rw [hpres 4 (Or.inl hiqr) (by rw [hc4]; simp), hc4]
    have hp5 : cellAt ((cleanDataFrame pol (ventasRules ⟨ventasColsT, rows⟩)).rows.getD j []) 5 =
        some (.num p) := by
      rw [hpres 5 (Or.inl hiqr) (by rw [hc5]; simp), hc5]
    have hp6 : cellAt ((cleanDataFrame pol (ventasRules ⟨ventasColsT, rows⟩)).rows.getD j []) 6 =
        some (.num (if (1:ℚ)/100 < |t2 - c * p| then c * p else t2)) := by
      rw [hpres 6 (Or.inl hiqr) (by rw [hc6]; simp), hc6]
    have hVcols : (ventasRules ⟨ventasColsT, rows⟩).cols =
        [⟨"id", .int⟩, ⟨"fecha", .datetime⟩, ⟨"producto_id", .int⟩, ⟨"cliente_id", .int⟩,
         ⟨"cantidad", .int⟩, ⟨"precio", .float⟩, ⟨"total", .float⟩, ⟨"mes", .int⟩,
         ⟨"año", .int⟩, ⟨"dia_semana", .obj⟩] := by
      rw [ventasRules_explicit]
    have hcIdx : ∀ n, colIdx (cleanDataFrame pol (ventasRules ⟨ventasColsT, rows⟩)) n =
        idxOfName
          [⟨"id", .int⟩, ⟨"fecha", .datetime⟩, ⟨"producto_id", .int⟩, ⟨"cliente_id", .int⟩,
           ⟨"cantidad", .int⟩, ⟨"precio", .float⟩, ⟨"total", .float⟩, ⟨"mes", .int⟩,
           ⟨"año", .int⟩, ⟨"dia_semana", .obj⟩] n := by
      intro n
      rw [colIdx, cleanDataFrame_cols, hVcols]
    have hty4 : ∀ q ∈ ventasTypes,
        colIdx (cleanDataFrame pol (ventasRules ⟨ventasColsT, rows⟩)) q.1 = some 4 →
          q.2 = "int" ∨ q.2 = "float" := by
      intro q hq hcolp
      rw [hcIdx] at hcolp
      fin_cases hq
      · exact absurd hcolp (by decide)
      · exact absurd hcolp (by decide)
      · exact absurd hcolp (by decide)
      · exact absurd hcolp (by decide)
      · exact Or.inl rfl
      · exact absurd hcolp (by decide)
    have hty5 : ∀ q ∈ ventasTypes,
        colIdx (cleanDataFrame pol (ventasRules ⟨ventasColsT, rows⟩)) q.1 = some 5 →
          q.2 = "int" ∨ q.2 = "float" := by
      intro q hq hcolp
      rw [hcIdx] at hcolp
      fin_cases hq
      · exact absurd hcolp (by decide)
      · exact absurd hcolp (by decide)
      · exact absurd hcolp (by decide)
      · exact absurd hcolp (by decide)
      · exact absurd hcolp (by decide)
      · exact Or.inr rfl
    have hty6 : ∀ q ∈ ventasTypes,
        colIdx (cleanDataFrame pol (ventasRules ⟨ventasColsT, rows⟩)) q.1 = some 6 →
          q.2 = "int" ∨ q.2 = "float" := by
      intro q hq hcolp
      rw [hcIdx] at hcolp
      fin_cases hq
      · exact absurd hcolp (by decide)
      · exact absurd hcolp (by decide)
      · exact absurd hcolp (by decide)
      · exact absurd hcolp (by decide)
      · exact absurd hcolp (by decide)
      · exact absurd hcolp (by decide)
    have h4 := validateDataTypes_cell_num ventasTypes _ 4 hty4 j c hp4
    have h5 := validateDataTypes_cell_num ventasTypes _ 5 hty5 j p hp5
    have h6 := validateDataTypes_cell_num ventasTypes _ 6 hty6 j _ hp6
    rw [hje] at h4 h5 h6
    refine ⟨c, p, if (1:ℚ)/100 < |t2 - c * p| then c * p else t2, h4, h5, h6, ?_⟩
    by_cases hgt : (1:ℚ)/100 < |t2 - c * p|
    · rw [if_pos hgt]
      simp
    · rw [if_neg hgt]
      linarith [not_lt.mp hgt]
  · intro j hj c p t hc4 hc5 hc6
    have hmem0 : rows.getD j [] ∈ rows := getD_mem_of_lt _ j [] hj
    obtain ⟨a0, a1, a2, a3, a4, a5, a6, he⟩ := length7 _ (hrect _ hmem0)
    rw [he] at hc4 hc5 hc6
    simp only [cellAt, List.getD_cons_succ, List.getD_cons_zero] at hc4 hc5 hc6
    subst hc4
    subst hc5
    subst hc6
    have hgd := ventasRules_getD rows j hj a0 a1 a2 a3 c p t he
    rw [hgd]
    simp only [cellAt, List.getD_cons_succ, List.getD_cons_zero]
    rw [apply_ite (fun x : ℚ => some (Value.num x)), if_congr (hbridge c p t) rfl rfl,
      qMul_eq]

/-- Witness for `c4_reconciliation_tolerance` on a two-record frame (one
total 999-off, one exact) under the default forward-fill policy with outliers
disabled. -/
theorem c4_reconciliation_tolerance_witness :
    (∀ r2 ∈ (transformVentas c4wpol c4wdf).rows, ∃ c p t : ℚ,
      cellAt r2 4 = some (.num c) ∧ cellAt r2 5 = some (.num p) ∧
      cellAt r2 6 = some (.num t) ∧ |t - c * p| ≤ 1/100) ∧
    (∀ j, j < c4wdf.rows.length → ∀ c p t : ℚ,
      cellAt (c4wdf.rows.getD j []) 4 = some (.num c) →
      cellAt (c4wdf.rows.getD j []) 5 = some (.num p) →
      cellAt (c4wdf.rows.getD j []) 6 = some (.num t) →
      cellAt ((ventasRules c4wdf).rows.getD j []) 6 =
        some (.num (if 1/100 < |t - c * p| then c * p else t))) :=
  c4_reconciliation_tolerance c4wpol c4wdf rfl (by decide) (by decide) (by decide)

/-! ## Claim C5: idempotence of cleaning -/

/-- C5 counterexample: with the repository's default policy (duplicates
removed, forward fill) the frame `[[0], [null]]` cleans to `[[0], [0]]`, and a
second pass removes the new duplicate, so `clean(clean(D,P)) ≠ clean(D,P)`. -/
theorem c5_counterexample :
    cleanDataFrame c5pol (cleanDataFrame c5pol c5df) ≠ cleanDataFrame c5pol c5df := by
  decide

/-- C5 (amended): cleaning is idempotent for policies that neither remove
duplicates nor clamp outliers; the missing-value fill (each of the three
strategies) is idempotent on its own. -/
theorem c5_clean_idempotent_restricted (pol : CleaningPolicy) (df : DataFrame)
    (h1 : pol.removeDuplicates = false) (h2 : pol.outlierMethod ≠ "iqr") :
    cleanDataFrame pol (cleanDataFrame pol df) = cleanDataFrame pol df := by
  rw [cleanDataFrame_eq_fill pol df h1 h2, cleanDataFrame_eq_fill pol _ h1 h2,
    fillMissingStep_idem]

/-- Witness for `c5_clean_idempotent_restricted` at a concrete frame and
policy. -/
theorem c5_clean_idempotent_restricted_witness :
    cleanDataFrame c5wpol (cleanDataFrame c5wpol c5wdf) = cleanDataFrame c5wpol c5wdf :=
  c5_clean_idempotent_restricted c5wpol c5wdf rfl (by decide)

/-! ## Claim C6: row counts and duplicate removal -/

/-- C6 counterexample: with `remove_duplicates` on and the default forward
fill, cleaning `[[5], [null]]` yields `[[5], [5]]` — the output records are
not unique across all columns, because the fill step runs after the
duplicate-removal step and can re-create duplicates. -/
theorem c6_counterexample :
    c6pol.removeDuplicates = true ∧ ¬ (cleanDataFrame c6pol c6df).rows.Nodup := by
  decide

/-- C6 (amended): with `remove_duplicates` false the cleaned output has
exactly the input's record count, and in every case at most the input's; the
duplicate-removal step itself produces unique records, keeps a subsequence of
the input (original relative order), retains every record value, and keeps the
first occurrence of each duplicate group — but the later fill step can merge
surviving records, so final-output uniqueness does not hold in general. -/
theorem c6_length_and_dedup (pol : CleaningPolicy) (df : DataFrame) :
    (pol.removeDuplicates = false →
      (cleanDataFrame pol df).rows.length = df.rows.length) ∧
    (cleanDataFrame pol df).rows.length ≤ df.rows.length ∧
    (dedupStep df).rows.Nodup ∧
    (dedupStep df).rows.Sublist df.rows ∧
    (∀ r, r ∈ (dedupStep df).rows ↔ r ∈ df.rows) ∧
    (∀ (x : List (Option Value)) (l : List (List (Option Value))),
      dedupKeepFirst (x :: l) = x :: dedupKeepFirst (l.filter (fun y => y ≠ x))) :=
  ⟨fun h => cleanDataFrame_rows_length_eq pol df h,
   cleanDataFrame_rows_length_le pol df,
   dedupKeepFirst_nodup df.rows,
   dedupKeepFirst_sublist df.rows,
   fun r => mem_dedupKeepFirst_iff df.rows r,
   fun x l => dedupKeepFirst_cons x l⟩

/-- Witness for `c6_length_and_dedup` at a concrete frame and policy. -/
theorem c6_length_and_dedup_witness :
    ((c6pol.removeDuplicates = false →
      (cleanDataFrame c6pol c6df).rows.length = c6df.rows.length) ∧
    (cleanDataFrame c6pol c6df).rows.length ≤ c6df.rows.length ∧
    (dedupStep c6df).rows.Nodup ∧
    (dedupStep c6df).rows.Sublist c6df.rows ∧
    (∀ r, r ∈ (dedupStep c6df).rows ↔ r ∈ c6df.rows) ∧
    (∀ (x : List (Option Value)) (l : List (List (Option Value))),
      dedupKeepFirst (x :: l) = x :: dedupKeepFirst (l.filter (fun y => y ≠ x)))) :=
  c6_length_and_dedup c6pol c6df

/-! ## Claim C10: unknown missing-value strategies -/

/-- C10: any strategy string other than `'forward'` and `'backward'` takes the
constant branch of the missing-value step: null cells of int64/float64 columns
are filled with the numeric constant, null cells of every other column with
the categorical constant, and non-null cells are untouched.  (The branch is a
total `else`: no strategy value can raise.) -/
theorem c10_unknown_strategy_constant (pol : CleaningPolicy) (df : DataFrame)
    (h1 : pol.strategy ≠ "forward") (h2 : pol.strategy ≠ "backward") :
    fillMissingStep pol df = constFillStep pol df ∧
    ∀ j, j < df.rows.length →
      ∀ i, i < df.cols.length → i < (df.rows.getD j []).length →
        cellAt ((fillMissingStep pol df).rows.getD j []) i =
          (if cellAt (df.rows.getD j []) i = none then
            (if (df.cols.getD i ⟨"", .obj⟩).dtype.isNumeric then
              some (.num pol.numericFill)
            else some pol.categoricalFill)
          else cellAt (df.rows.getD j []) i) := by
  have heq : fillMissingStep pol df = constFillStep pol df := by
    rw [fillMissingStep, if_neg h1, if_neg h2]
  refine ⟨heq, fun j hj i hic hir => ?_⟩
  rw [heq]
  have hmap : (constFillStep pol df).rows.getD j [] =
      List.zipWith (fun (c : Col) cell => fillCellConst pol c.dtype cell) df.cols
        (df.rows.getD j []) := by
    rw [constFillStep]
    exact getD_map_pos _ df.rows j [] [] hj
  rw [hmap]
  simp only [cellAt]
  rw [getD_zipWith_pos _ df.cols (df.rows.getD j []) i none ⟨"", .obj⟩ none hic hir]
  rcases hc : (df.rows.getD j []).getD i none with _ | v
  · rw [if_pos rfl]
    rfl
  · rw [if_neg (by simp)]
    rfl

/-! ## Claim C7: partial failure of raw-source loading -/

theorem mem_extractCsvFiles_names (sources : List (String × Except String DataFrame))
    (n : String) (df : DataFrame) (h : (n, df) ∈ extractCsvFiles sources) :
    n ∈ sources.map Prod.fst := by
  induction sources with
  | nil => simp [extractCsvFiles] at h
  | cons s rest ih =>
    obtain ⟨m, o⟩ := s
    cases o with
    | error e =>
      rw [extractCsvFiles] at h
      exact List.mem_cons_of_mem _ (ih h)
    | ok df2 =>
      rw [extractCsvFiles] at h
      split at h
      · exact List.mem_cons_of_mem _ (ih h)
      · rcases List.mem_cons.mp h with heq | htail
        · injection heq with hn ho
          subst hn
          rw [List.map_cons]
          exact List.mem_cons_self _ _
        · exact List.mem_cons_of_mem _ (ih htail)

/-- C7 counterexample: in the scraper manager, a competitor whose scrape
raises is *present* in the result mapping, bound to an empty product list —
not absent from it as the claim states. -/
theorem c7_counterexample :
    scrapeAllCompetitors c7outcomes =
      [("amazon", []), ("mercadolibre", [Value.str "p1"])] ∧
    ("amazon", ([] : List Value)) ∈ scrapeAllCompetitors c7outcomes := by
  decide

/-- C7 (amended): the CSV extractor returns every succeeding non-empty source
and omits failed sources from its mapping entirely (per-source errors are
caught and skipped, so the loop never aborts); the scraper manager instead
keeps a failed competitor in the mapping, bound to an empty list. -/
theorem c7_partial_failure :
    (∀ (sources : List (String × Except String DataFrame)) (n : String) (df : DataFrame),
      (n, Except.ok df) ∈ sources → dfEmpty df = false →
      (n, df) ∈ extractCsvFiles sources) ∧
    (∀ (sources : List (String × Except String DataFrame)) (n : String) (e : String),
      (n, Except.error e) ∈ sources → (sources.map Prod.fst).Nodup →
      ∀ df, (n, df) ∉ extractCsvFiles sources) ∧
    (∀ (α : Type) (outcomes : List (String × Except String (List α))) (n e : String),
      (n, Except.error e) ∈ outcomes → (n, ([] : List α)) ∈ scrapeAllCompetitors outcomes) := by
  refine ⟨?_, ?_, ?_⟩
  · intro sources
    induction sources with
    | nil => intro n df h _; simp at h
    | cons s rest ih =>
      intro n df h hne
      obtain ⟨m, o⟩ := s
      rcases List.mem_cons.mp h with heq | htail
      · injection heq with hn ho
        subst hn
        subst ho
        have hcond : ¬ (dfEmpty df = true) := by rw [hne]; decide
        rw [extractCsvFiles, if_neg hcond]
        exact List.mem_cons_self _ _
      · cases o with
        | error e => rw [extractCsvFiles]; exact ih n df htail hne
        | ok df2 =>
          rw [extractCsvFiles]
          split
          · exact ih n df htail hne
          · exact List.mem_cons_of_mem _ (ih n df htail hne)
  · intro sources
    induction sources with
    | nil => intro n e h; simp at h
    | cons s rest ih =>
      intro n e h hnd df hmem
      obtain ⟨m, o⟩ := s
      rw [List.map_cons, List.nodup_cons] at hnd
      rcases List.mem_cons.mp h with heq | htail
      · injection heq with hn ho
        subst hn
        subst ho
        rw [extractCsvFiles] at hmem
        exact hnd.1 (mem_extractCsvFiles_names rest n df hmem)
      · cases o with
        | error e2 =>
          rw [extractCsvFiles] at hmem
          exact ih n e htail hnd.2 df hmem
        | ok df2 =>
          rw [extractCsvFiles] at hmem
          split at hmem
          · exact ih n e htail hnd.2 df hmem
          · rcases List.mem_cons.mp hmem with heq2 | htail2
            · injection heq2 with hn _
              subst hn
              exact hnd.1 (List.mem_map.mpr ⟨(n, Except.error e), htail, rfl⟩)
            · exact ih n e htail hnd.2 df htail2
  · intro α outcomes n e h
    exact List.mem_map.mpr ⟨(n, Except.error e), h, rfl⟩

/-- Witness for `c7_partial_failure` at concrete sources: the succeeding
`ventas` frame is returned, the failed `productos` source is absent, and the
failed `amazon` competitor maps to an empty list. -/
theorem c7_partial_failure_witness :
    ("ventas", (⟨[⟨"id", .int⟩], [[some (.num 1)]]⟩ : DataFrame)) ∈
      extractCsvFiles c7wsources ∧
    (∀ df, ("productos", df) ∉ extractCsvFiles c7wsources) ∧
    ("amazon", ([] : List Value)) ∈ scrapeAllCompetitors c7outcomes :=
  ⟨c7_partial_failure.1 c7wsources "ventas" _
      (by rw [c7wsources]; exact List.mem_cons_self _ _) (by decide),
   fun df =>
    c7_partial_failure.2.1 c7wsources "productos" "SourceUnavailable"
      (by rw [c7wsources]; exact List.mem_cons_of_mem _ (List.mem_cons_self _ _))
      (by decide) df,
   c7_partial_failure.2.2 Value c7outcomes "amazon" "SourceUnavailable"
      (by rw [c7outcomes]; exact List.mem_cons_self _ _)⟩

/-! ## Claim C8: the Load Sink batch -/

/-- C8 counterexample: with a sink that rejects table `t1`, a batch
`[t1, t2]` stops at `t1` — `load_all` returns `False` having issued only the
`t1` request; `t2` is never attempted. -/
theorem c8_counterexample :
    loadAll c8sink [("t1", c8table), ("t2", c8table)] =
      (false, [⟨"t1", "replace", c8table⟩]) ∧
    ∀ req ∈ (loadAll c8sink [("t1", c8table), ("t2", c8table)]).2, req.name ≠ "t2" := by
  decide

/-- C8 (amended): every request `load_all` issues carries
`if_exists='replace'`; but a table whose persist fails aborts the batch — the
loop returns `False` immediately and no later table is attempted. -/
theorem c8_replace_mode_abort :
    (∀ (sink : SinkRequest → Bool) (tables : List (String × DataFrame)),
      ∀ req ∈ (loadAll sink tables).2, req.mode = "replace") ∧
    (∀ (sink : SinkRequest → Bool) (n : String) (df : DataFrame)
        (rest : List (String × DataFrame)),
      dfEmpty df = false →
      sink ⟨n, "replace", prepareDataForInsertion n df⟩ = false →
      loadAll sink ((n, df) :: rest) =
        (false, [⟨n, "replace", prepareDataForInsertion n df⟩])) := by
  constructor
  · intro sink tables
    induction tables with
    | nil => intro req h; simp [loadAll, loadAllGo] at h
    | cons s rest ih =>
      intro req h
      obtain ⟨n, df⟩ := s
      rw [loadAll, loadAllGo] at h
      by_cases hemp : dfEmpty df = true
      · rw [loadTable, if_pos hemp] at h
        simp only [List.nil_append] at h
        split at h
        · exact ih req h
        · simp at h
      · rw [loadTable, if_neg hemp] at h
        split at h
        · rcases List.mem_cons.mp h with heq | htail
          · rw [heq]
          · exact ih req htail
        · rcases List.mem_cons.mp h with heq | htail
          · rw [heq]
          · simp at htail
  · intro sink n df rest hemp hfail
    have hne : ¬ (dfEmpty df = true) := by rw [hemp]; decide
    rw [loadAll, loadAllGo, loadTable, if_neg hne]
    simp [hfail]

/-- Witness for `c8_replace_mode_abort` at a concrete sink and batch. -/
theorem c8_replace_mode_abort_witness :
    (∀ req ∈ (loadAll c8wsink [("a", c8table), ("bad", c8table)]).2,
      req.mode = "replace") ∧
    loadAll c8wsink (("bad", c8table) :: [("z", c8table)]) =
      (false, [⟨"bad", "replace", prepareDataForInsertion "bad" c8table⟩]) :=
  ⟨c8_replace_mode_abort.1 c8wsink _,
   c8_replace_mode_abort.2 c8wsink "bad" c8table [("z", c8table)] (by decide) (by decide)⟩

/-! ## Claim C1: the rollup enrichment join -/

/-- C1 counterexample: the single sales group (producto_id 999) has no
matching product, and the derived `ventas_por_producto` table is empty — the
group is dropped, not kept with null enrichment columns. -/
theorem c1_counterexample :
    (ventasPorProducto c1ventas c1productos).rows = [] ∧
    groupKeys c1ventas 1 = [999] := by
  decide

/-- C1 (amended): the enrichment merge is pandas' default inner join.  Every
row of `ventas_por_producto` is an aggregate row paired with an actual
matching product row (its enrichment cells are that product's cells, never
nulls), and a group key with no matching product id yields no output row at
all. -/
theorem c1_inner_join_enrichment (v p : DataFrame) (ip ic it iid pid pn pc : ℕ)
    (h1 : colIdx v "producto_id" = some ip) (h2 : colIdx v "cantidad" = some ic)
    (h3 : colIdx v "total" = some it) (h4 : colIdx v "id" = some iid)
    (h5 : colIdx p "id" = some pid) (h6 : colIdx p "nombre" = some pn)
    (h7 : colIdx p "categoria" = some pc) :
    (∀ row ∈ (ventasPorProducto v p).rows, ∃ pr ∈ p.rows, ∃ k ∈ groupKeys v ip,
      cellAt pr pid = some (.num k) ∧
      row = aggRowFor v ip ic it iid k ++ [cellAt pr pid, cellAt pr pn, cellAt pr pc]) ∧
    (∀ k ∈ groupKeys v ip, (∀ pr ∈ p.rows, cellAt pr pid ≠ some (.num k)) →
      ∀ row ∈ (ventasPorProducto v p).rows, cellAt row 3 ≠ some (.num k)) := by
  have hrows : (ventasPorProducto v p).rows =
      (groupKeys v ip).flatMap (fun k =>
        (p.rows.filter (fun pr => cellAt pr pid = some (.num k))).map
          (fun pr => aggRowFor v ip ic it iid k ++
            [cellAt pr pid, cellAt pr pn, cellAt pr pc])) := by
    rw [ventasPorProducto, h1, h2, h3, h4, h5, h6, h7]
  constructor
  · intro row hrow
    rw [hrows] at hrow
    obtain ⟨k, hk, hmem⟩ := List.mem_flatMap.mp hrow
    obtain ⟨pr, hprf, hre⟩ := List.mem_map.mp hmem
    obtain ⟨hprm, hcell⟩ := List.mem_filter.mp hprf
    exact ⟨pr, hprm, k, hk, of_decide_eq_true hcell, hre.symm⟩
  · intro k hk hno row hrow
    rw [hrows] at hrow
    obtain ⟨k2, hk2, hmem⟩ := List.mem_flatMap.mp hrow
    obtain ⟨pr, hprf, hre⟩ := List.mem_map.mp hmem
    obtain ⟨hprm, hcell⟩ := List.mem_filter.mp hprf
    have hc2 : cellAt pr pid = some (.num k2) := of_decide_eq_true hcell
    intro hrow3
    have h3c : cellAt row 3 = cellAt pr pid := by
      rw [← hre]
      simp [aggRowFor, cellAt]
    rw [h3c, hc2] at hrow3
    have : k2 = k := by
      injection hrow3 with h
      injection h
    exact hno pr hprm (this ▸ hc2)

/-- Witness for `c1_inner_join_enrichment` at concrete matched frames. -/
theorem c1_inner_join_enrichment_witness :
    ((∀ row ∈ (ventasPorProducto c1wventas c1wproductos).rows,
      ∃ pr ∈ c1wproductos.rows, ∃ k ∈ groupKeys c1wventas 1,
      cellAt pr 0 = some (.num k) ∧
      row = aggRowFor c1wventas 1 2 3 0 k ++ [cellAt pr 0, cellAt pr 1, cellAt pr 2]) ∧
    (∀ k ∈ groupKeys c1wventas 1,
      (∀ pr ∈ c1wproductos.rows, cellAt pr 0 ≠ some (.num k)) →
      ∀ row ∈ (ventasPorProducto c1wventas c1wproductos).rows,
        cellAt row 3 ≠ some (.num k))) :=
  c1_inner_join_enrichment c1wventas c1wproductos 1 2 3 0 0 1 2
    rfl rfl rfl rfl rfl rfl rfl

/-- Witness for `c10_unknown_strategy_constant`: strategy `'median'` on a
two-column frame. -/
theorem c10_unknown_strategy_constant_witness :
    (fillMissingStep c10wpol c10wdf = constFillStep c10wpol c10wdf ∧
    ∀ j, j < c10wdf.rows.length →
      ∀ i, i < c10wdf.cols.length → i < (c10wdf.rows.getD j []).length →
        cellAt ((fillMissingStep c10wpol c10wdf).rows.getD j []) i =
          (if cellAt (c10wdf.rows.getD j []) i = none then
            (if (c10wdf.cols.getD i ⟨"", .obj⟩).dtype.isNumeric then
              some (.num c10wpol.numericFill)
            else some c10wpol.categoricalFill)
          else cellAt (c10wdf.rows.getD j []) i)) :=
  c10_unknown_strategy_constant c10wpol c10wdf (by decide) (by decide)

end ETL

